import Mathlib

/-!
Verification of the wgpu_graphics 2D batching back-end (`src/lib.rs`).

The development shallowly embeds the parts of the source the claims are
about: the precompiled pipeline table (`PsoBlend`, `PsoStencil`,
`Wgpu2d.new`), the per-frame batching state (`WgpuGraphics`), the flush
primitives (`command_colored`, `command_textured`), the submit entry
points (`tri_list`, `tri_list_c`, `tri_list_uv`, `tri_list_uv_c`), the
clears and `draw`.  `f32` scalars are only ever copied by this code
(never compared or computed with), so they are carried as opaque `Int`
payloads.  The `unwrap` of the current texture in `command_textured` is
embedded as an `Option` result: `Option.none` models the panic.
-/

/-- Opaque 2-component float payload (positions, UVs): carried, never computed with. -/
structure Vec2 where
  x : Int
  y : Int
deriving DecidableEq, Repr

/-- Opaque 4-component float payload (colors): carried, never computed with. -/
structure Vec4 where
  r : Int
  g : Int
  b : Int
  a : Int
deriving DecidableEq, Repr

/-- Input struct for the colored pipeline vertex shader (`ColoredPipelineInput`). -/
structure ColoredPipelineInput where
  position : Vec2
  color : Vec4
deriving DecidableEq, Repr

/-- Input struct for the textured pipeline vertex shader (`TexturedPipelineInput`). -/
structure TexturedPipelineInput where
  xy : Vec2
  uv : Vec2
  color : Vec4
deriving DecidableEq, Repr

/-- `graphics::draw_state::Blend` of the piston graphics crate. -/
inductive Blend where
  | alpha
  | add
  | lighter
  | multiply
  | invert
deriving DecidableEq, Repr

/-- `graphics::draw_state::Stencil` of the piston graphics crate; `u8` values as `Nat`. -/
inductive Stencil where
  | clip (val : Nat)
  | inside (val : Nat)
  | outside (val : Nat)
  | increment
deriving DecidableEq, Repr

/-- Scissor rectangle `[u32; 4]` (x, y, width, height). -/
structure Rect4 where
  x : Nat
  y : Nat
  w : Nat
  h : Nat
deriving DecidableEq, Repr

/-- `graphics::DrawState`: blend, stencil and scissor of one draw call. -/
structure DrawState where
  scissor : Option Rect4
  stencil : Option Stencil
  blend : Option Blend
deriving DecidableEq, Repr

/-- `DrawState::default()` of the piston graphics crate (alpha blending, no stencil, no scissor). -/
def DrawState.default : DrawState :=
  { scissor := Option.none, stencil := Option.none, blend := some Blend.alpha }

/-- A texture handle; equality is the identity comparison the source performs
with `texture != prev_texture`. -/
structure Texture where
  id : Nat
deriving DecidableEq, Repr

/-- `wgpu::BlendFactor` (only the constructors the source uses). -/
inductive BlendFactor where
  | one
  | zero
  | srcAlpha
  | oneMinusSrcAlpha
  | dst
  | dstAlpha
  | constant
  | src
deriving DecidableEq, Repr

/-- `wgpu::BlendOperation` (only the constructors the source uses). -/
inductive BlendOperation where
  | addOp
  | subtractOp
deriving DecidableEq, Repr

/-- `wgpu::BlendComponent`. -/
structure BlendComponent where
  src_factor : BlendFactor
  dst_factor : BlendFactor
  operation : BlendOperation
deriving DecidableEq, Repr

/-- `wgpu::BlendState`. -/
structure BlendState where
  color : BlendComponent
  alpha : BlendComponent
deriving DecidableEq, Repr

/-- `wgpu::BlendState::ALPHA_BLENDING`. -/
def BlendState.alphaBlending : BlendState :=
  { color := { src_factor := BlendFactor.srcAlpha, dst_factor := BlendFactor.oneMinusSrcAlpha,
               operation := BlendOperation.addOp },
    alpha := { src_factor := BlendFactor.one, dst_factor := BlendFactor.oneMinusSrcAlpha,
               operation := BlendOperation.addOp } }

/-- `wgpu::CompareFunction` (only the constructors the source uses). -/
inductive CompareFunction where
  | never
  | equal
  | notEqual
  | always
deriving DecidableEq, Repr

/-- `wgpu::StencilOperation` (only the constructors the source uses). -/
inductive StencilOperation where
  | keep
  | replace
  | incrementClamp
deriving DecidableEq, Repr

/-- `wgpu::StencilFaceState`. -/
structure StencilFaceState where
  compare : CompareFunction
  fail_op : StencilOperation
  depth_fail_op : StencilOperation
  pass_op : StencilOperation
deriving DecidableEq, Repr

/-- `wgpu::StencilFaceState::IGNORE`, also the `Default` the source's
`..Default::default()` fills in. -/
def StencilFaceState.ignore : StencilFaceState :=
  { compare := CompareFunction.always, fail_op := StencilOperation.keep,
    depth_fail_op := StencilOperation.keep, pass_op := StencilOperation.keep }

/-- `wgpu::StencilState`. -/
structure StencilState where
  front : StencilFaceState
  back : StencilFaceState
  read_mask : Nat
  write_mask : Nat
deriving DecidableEq, Repr

/-- `stencil_none` local of `PsoStencil::new`. -/
def stencil_none : StencilState :=
  { front := StencilFaceState.ignore, back := StencilFaceState.ignore,
    read_mask := 0, write_mask := 0 }

/-- `stencil_clip` local of `PsoStencil::new`. -/
def stencil_clip : StencilState :=
  { front := { StencilFaceState.ignore with
               compare := CompareFunction.never,
               fail_op := StencilOperation.replace },
    back := { StencilFaceState.ignore with
              compare := CompareFunction.never,
              fail_op := StencilOperation.replace },
    read_mask := 255, write_mask := 255 }

/-- `stencil_inside` local of `PsoStencil::new`. -/
def stencil_inside : StencilState :=
  { front := { StencilFaceState.ignore with compare := CompareFunction.equal },
    back := { StencilFaceState.ignore with compare := CompareFunction.equal },
    read_mask := 255, write_mask := 255 }

/-- `stencil_outside` local of `PsoStencil::new`. -/
def stencil_outside : StencilState :=
  { front := { StencilFaceState.ignore with compare := CompareFunction.notEqual },
    back := { StencilFaceState.ignore with compare := CompareFunction.notEqual },
    read_mask := 255, write_mask := 255 }

/-- `stencil_increment` local of `PsoStencil::new`. -/
def stencil_increment : StencilState :=
  { front := { StencilFaceState.ignore with
               compare := CompareFunction.never,
               fail_op := StencilOperation.incrementClamp },
    back := { StencilFaceState.ignore with
              compare := CompareFunction.never,
              fail_op := StencilOperation.incrementClamp },
    read_mask := 255, write_mask := 255 }

/-- `blend_add` local of `PsoStencil::new`. -/
def blend_add : BlendState :=
  { color := { src_factor := BlendFactor.one, dst_factor := BlendFactor.one,
               operation := BlendOperation.addOp },
    alpha := { src_factor := BlendFactor.one, dst_factor := BlendFactor.one,
               operation := BlendOperation.addOp } }

/-- `blend_lighter` local of `PsoStencil::new`. -/
def blend_lighter : BlendState :=
  { color := { src_factor := BlendFactor.srcAlpha, dst_factor := BlendFactor.one,
               operation := BlendOperation.addOp },
    alpha := { src_factor := BlendFactor.zero, dst_factor := BlendFactor.one,
               operation := BlendOperation.addOp } }

/-- `blend_multiply` local of `PsoStencil::new`. -/
def blend_multiply : BlendState :=
  { color := { src_factor := BlendFactor.dst, dst_factor := BlendFactor.zero,
               operation := BlendOperation.addOp },
    alpha := { src_factor := BlendFactor.dstAlpha, dst_factor := BlendFactor.zero,
               operation := BlendOperation.addOp } }

/-- `blend_invert` local of `PsoStencil::new`. -/
def blend_invert : BlendState :=
  { color := { src_factor := BlendFactor.constant, dst_factor := BlendFactor.src,
               operation := BlendOperation.subtractOp },
    alpha := { src_factor := BlendFactor.zero, dst_factor := BlendFactor.one,
               operation := BlendOperation.addOp } }

/-- `PsoBlend<T>`: one `T` per blend mode. -/
structure PsoBlend (α : Type) where
  none : α
  alpha : α
  add : α
  lighter : α
  multiply : α
  invert : α
deriving DecidableEq, Repr

/-- `PsoBlend::blend`: lookup by `Option<Blend>`. -/
def PsoBlend.blend {α : Type} (p : PsoBlend α) : Option Blend → α
  | Option.none => p.none
  | some Blend.alpha => p.alpha
  | some Blend.add => p.add
  | some Blend.lighter => p.lighter
  | some Blend.multiply => p.multiply
  | some Blend.invert => p.invert

/-- `PsoStencil<T>`: one `PsoBlend<T>` per stencil class. -/
structure PsoStencil (α : Type) where
  none : PsoBlend α
  clip : PsoBlend α
  inside : PsoBlend α
  outside : PsoBlend α
  increment : PsoBlend α
deriving DecidableEq, Repr

/-- One blend-mode group of `PsoStencil::new`: calls `f` for the six blend
modes in the source's order, threading the creation state `σ`. -/
def PsoBlend.new {α σ : Type} (f : Option BlendState → StencilState → σ → α × σ)
    (stencil : StencilState) (s : σ) : PsoBlend α × σ :=
  let (vnone, s) := f Option.none stencil s
  let (valpha, s) := f (some BlendState.alphaBlending) stencil s
  let (vadd, s) := f (some blend_add) stencil s
  let (vlighter, s) := f (some blend_lighter) stencil s
  let (vmultiply, s) := f (some blend_multiply) stencil s
  let (vinvert, s) := f (some blend_invert) stencil s
  (⟨vnone, valpha, vadd, vlighter, vmultiply, vinvert⟩, s)

/-- `PsoStencil::new`: builds one object per (stencil class, blend mode), in
the source's call order (none, clip, inside, outside, increment groups). -/
def PsoStencil.new {α σ : Type} (f : Option BlendState → StencilState → σ → α × σ)
    (s : σ) : PsoStencil α × σ :=
  let (gnone, s) := PsoBlend.new f stencil_none s
  let (gclip, s) := PsoBlend.new f stencil_clip s
  let (ginside, s) := PsoBlend.new f stencil_inside s
  let (goutside, s) := PsoBlend.new f stencil_outside s
  let (gincrement, s) := PsoBlend.new f stencil_increment s
  (⟨gnone, gclip, ginside, goutside, gincrement⟩, s)

/-- `PsoStencil::stencil_blend`: selects the object for a `(stencil, blend)` pair
and returns the stencil reference value when the mode carries one. -/
def PsoStencil.stencil_blend {α : Type} (p : PsoStencil α) :
    Option Stencil → Option Blend → α × Option Nat
  | Option.none, blend => (p.none.blend blend, Option.none)
  | some (Stencil.clip val), blend => (p.clip.blend blend, some val)
  | some (Stencil.inside val), blend => (p.inside.blend blend, some val)
  | some (Stencil.outside val), blend => (p.outside.blend blend, some val)
  | some Stencil.increment, blend => (p.increment.blend blend, Option.none)

/-- The six blend-mode entries of a `PsoBlend`, in declaration order. -/
def PsoBlend.toList {α : Type} (p : PsoBlend α) : List α :=
  [p.none, p.alpha, p.add, p.lighter, p.multiply, p.invert]

/-- The thirty entries of a `PsoStencil`, in declaration order. -/
def PsoStencil.toList {α : Type} (p : PsoStencil α) : List α :=
  p.none.toList ++ p.clip.toList ++ p.inside.toList ++ p.outside.toList ++ p.increment.toList

/-- A render pipeline object as produced by `device.create_render_pipeline`
inside `Wgpu2d::new`: a fresh object identity plus the blend/stencil
fixed-function state of its descriptor; `colored` records which shader
set (colored vs textured) the descriptor named. -/
structure Pipeline where
  id : Nat
  blend : Option BlendState
  stencil : StencilState
  colored : Bool
deriving DecidableEq, Repr

/-- The engine: the two precompiled pipeline tables and the two pending
vertex buffers (`Wgpu2d`). -/
structure Wgpu2d where
  colored_render_pipelines : PsoStencil Pipeline
  textured_render_pipelines : PsoStencil Pipeline
  colored_data : List ColoredPipelineInput
  textured_data : List TexturedPipelineInput
deriving DecidableEq, Repr

/-- `graphics::BACK_END_MAX_VERTEX_COUNT`, the chunk size of the piston
graphics crate (external constant the source imports as `BUFFER_SIZE`). -/
def BUFFER_SIZE : Nat := 1024

/-- `CHUNKS`: the number of chunks to fill up before rendering. -/
def CHUNKS : Nat := 100

/-- `SOFT_BUFFER_LIMIT = CHUNKS * BUFFER_SIZE`. -/
def SOFT_BUFFER_LIMIT : Nat := CHUNKS * BUFFER_SIZE

/-- `Wgpu2d::new`: eagerly builds the colored pipeline table, then the
textured one.  Each `create_render_pipeline` call yields a fresh object
identity, modelled by a counter threaded through the two `PsoStencil::new`
calls in the source's order. -/
def Wgpu2d.new : Wgpu2d :=
  let mk : Bool → Option BlendState → StencilState → Nat → Pipeline × Nat :=
    fun colored blend stencil n => (⟨n, blend, stencil, colored⟩, n + 1)
  let (cp, n1) := PsoStencil.new (mk true) 0
  let (tp, _) := PsoStencil.new (mk false) n1
  { colored_render_pipelines := cp, textured_render_pipelines := tp,
    colored_data := [], textured_data := [] }

/-- `wgpu::LoadOp`. -/
inductive LoadOp (α : Type) where
  | load
  | clear (v : α)
deriving DecidableEq, Repr

/-- `wgpu::Color` as produced by `to_wgpu_color` (the `f32 -> f64` casts are
identities on the opaque scalar payload). -/
structure WgpuColor where
  r : Int
  g : Int
  b : Int
  a : Int
deriving DecidableEq, Repr

/-- `to_wgpu_color`. -/
def to_wgpu_color (color : Vec4) : WgpuColor :=
  { r := color.r, g := color.g, b := color.b, a := color.a }

/-- The observable content of one `command_colored` render pass: the freshly
created vertex buffer (`bufferId`), the uploaded vertices, the bound
pipeline, the draw state they were emitted under, the bound scissor
rectangle and the stencil reference value when one is set. -/
structure ColoredCall where
  bufferId : Nat
  verts : List ColoredPipelineInput
  pipeline : Pipeline
  state : DrawState
  scissor : Rect4
  stencilRef : Option Nat
deriving DecidableEq, Repr

/-- The observable content of one `command_textured` render pass; additionally
binds the texture's bind group. -/
structure TexturedCall where
  bufferId : Nat
  verts : List TexturedPipelineInput
  pipeline : Pipeline
  state : DrawState
  texture : Texture
  scissor : Rect4
  stencilRef : Option Nat
deriving DecidableEq, Repr

/-- One GPU command recorded into the frame's command encoder: a colored
draw pass, a textured draw pass, or a clear pass with its color and
stencil attachment load operations. -/
inductive Cmd where
  | colored (c : ColoredCall)
  | textured (c : TexturedCall)
  | clearPass (colorLoad : LoadOp WgpuColor) (stencilLoad : LoadOp Nat)
deriving DecidableEq, Repr

/-- The per-frame state (`WgpuGraphics`): the engine reference, output size,
the currently bound draw state and texture, the commands recorded so far
(the encoder's contents, in order) and the next fresh buffer identity
(`device.create_buffer_init` yields a fresh object per call). -/
structure WgpuGraphics where
  wgpu2d : Wgpu2d
  width : Nat
  height : Nat
  draw_state : DrawState
  texture : Option Texture
  cmds : List Cmd
  nextBufferId : Nat
deriving DecidableEq, Repr

/-- Pending colored vertices (`self.wgpu2d.colored_data`). -/
def WgpuGraphics.colored_data (g : WgpuGraphics) : List ColoredPipelineInput :=
  g.wgpu2d.colored_data

/-- Pending textured vertices (`self.wgpu2d.textured_data`). -/
def WgpuGraphics.textured_data (g : WgpuGraphics) : List TexturedPipelineInput :=
  g.wgpu2d.textured_data

/-- Replaces the pending colored buffer. -/
def WgpuGraphics.setColored (g : WgpuGraphics) (l : List ColoredPipelineInput) : WgpuGraphics :=
  { g with wgpu2d := { g.wgpu2d with colored_data := l } }

/-- Replaces the pending textured buffer. -/
def WgpuGraphics.setTextured (g : WgpuGraphics) (l : List TexturedPipelineInput) : WgpuGraphics :=
  { g with wgpu2d := { g.wgpu2d with textured_data := l } }

/-- The scissor rectangle bound by `command_colored`/`command_textured`:
`draw_state.scissor` or the full output extent. -/
def WgpuGraphics.scissorRect (g : WgpuGraphics) : Rect4 :=
  match g.draw_state.scissor with
  | some rect => rect
  | Option.none => ⟨0, 0, g.width, g.height⟩

/-- The pass `command_colored` records for the current pending colored batch. -/
def WgpuGraphics.coloredCallOf (g : WgpuGraphics) : ColoredCall :=
  let ps := g.wgpu2d.colored_render_pipelines.stencil_blend g.draw_state.stencil g.draw_state.blend
  { bufferId := g.nextBufferId, verts := g.colored_data, pipeline := ps.1,
    state := g.draw_state, scissor := g.scissorRect, stencilRef := ps.2 }

/-- `WgpuGraphics::command_colored`: records one colored render pass drawing
all pending colored vertices from a freshly created buffer, then clears
the pending colored buffer. -/
def WgpuGraphics.command_colored (g : WgpuGraphics) : WgpuGraphics :=
  { wgpu2d := { g.wgpu2d with colored_data := [] },
    width := g.width, height := g.height,
    draw_state := g.draw_state, texture := g.texture,
    cmds := g.cmds ++ [Cmd.colored g.coloredCallOf],
    nextBufferId := g.nextBufferId + 1 }

/-- The pass `command_textured` records for the current pending textured batch,
given the unwrapped current texture. -/
def WgpuGraphics.texturedCallOf (g : WgpuGraphics) (tex : Texture) : TexturedCall :=
  let ps := g.wgpu2d.textured_render_pipelines.stencil_blend g.draw_state.stencil g.draw_state.blend
  { bufferId := g.nextBufferId, verts := g.textured_data, pipeline := ps.1,
    state := g.draw_state, texture := tex, scissor := g.scissorRect, stencilRef := ps.2 }

/-- `WgpuGraphics::command_textured`: unwraps the current texture (returning
`Option.none` models the panic of `self.texture.as_ref().unwrap()`), records
one textured render pass drawing all pending textured vertices and binding
the texture's bind group, then clears the pending textured buffer. -/
def WgpuGraphics.command_textured (g : WgpuGraphics) : Option WgpuGraphics :=
  match g.texture with
  | Option.none => Option.none
  | some tex =>
    some { wgpu2d := { g.wgpu2d with textured_data := [] },
           width := g.width, height := g.height,
           draw_state := g.draw_state, texture := g.texture,
           cmds := g.cmds ++ [Cmd.textured (g.texturedCallOf tex)],
           nextBufferId := g.nextBufferId + 1 }

/-- `positions.iter().map(|&position| ColoredPipelineInput { position, color })`
of `tri_list`'s vertex callback. -/
def coloredVerts (color : Vec4) (positions : List Vec2) : List ColoredPipelineInput :=
  positions.map fun position => { position := position, color := color }

/-- `positions.iter().zip(colors.iter()).map(...)` of `tri_list_c`'s callback. -/
def coloredVertsC (pc : List Vec2 × List Vec4) : List ColoredPipelineInput :=
  (pc.1.zip pc.2).map fun q => { position := q.1, color := q.2 }

/-- `xys.iter().zip(uvs.iter()).map(...)` of `tri_list_uv`'s callback. -/
def texturedVerts (color : Vec4) (xu : List Vec2 × List Vec2) : List TexturedPipelineInput :=
  (xu.1.zip xu.2).map fun q => { xy := q.1, uv := q.2, color := color }

/-- `xys.iter().zip(uvs.iter()).zip(colors.iter()).map(...)` of
`tri_list_uv_c`'s callback. -/
def texturedVertsC (t : List Vec2 × List Vec2 × List Vec4) : List TexturedPipelineInput :=
  ((t.1.zip t.2.1).zip t.2.2).map fun q => { xy := q.1.1, uv := q.1.2, color := q.2 }

/-- One invocation of the per-chunk closure of a colored submit: flush when
the soft capacity would be exceeded, then extend the pending buffer. -/
def WgpuGraphics.coloredAppend (g : WgpuGraphics) (vs : List ColoredPipelineInput) :
    WgpuGraphics :=
  let g1 := if SOFT_BUFFER_LIMIT ≤ g.colored_data.length + BUFFER_SIZE
            then g.command_colored else g
  g1.setColored (g1.colored_data ++ vs)

/-- The sequence of per-chunk closure invocations of a colored submit. -/
def WgpuGraphics.coloredFold (g : WgpuGraphics) : List (List ColoredPipelineInput) → WgpuGraphics
  | [] => g
  | vs :: rest => (g.coloredAppend vs).coloredFold rest

/-- One invocation of the per-chunk closure of a textured submit. -/
def WgpuGraphics.texturedAppend (g : WgpuGraphics) (vs : List TexturedPipelineInput) :
    Option WgpuGraphics :=
  (if SOFT_BUFFER_LIMIT ≤ g.textured_data.length + BUFFER_SIZE
   then g.command_textured else some g).map
    fun g1 => g1.setTextured (g1.textured_data ++ vs)

/-- The sequence of per-chunk closure invocations of a textured submit. -/
def WgpuGraphics.texturedFold (g : WgpuGraphics) :
    List (List TexturedPipelineInput) → Option WgpuGraphics
  | [] => some g
  | vs :: rest => (g.texturedAppend vs).bind fun g1 => g1.texturedFold rest

/-- Records the incoming draw state (`self.draw_state = *draw_state`). -/
def WgpuGraphics.setDS (g : WgpuGraphics) (ds : DrawState) : WgpuGraphics :=
  { g with draw_state := ds }

/-- Records the incoming texture and draw state (`self.texture = Some(texture.clone());
self.draw_state = *draw_state`). -/
def WgpuGraphics.setTexDS (g : WgpuGraphics) (texture : Texture) (ds : DrawState) : WgpuGraphics :=
  { g with texture := some texture, draw_state := ds }

/-- The shared body of `tri_list`/`tri_list_c` (their entry flushes and chunk
loops are textually identical in the source; they differ only in how each
chunk's vertices are computed, which is the caller's `chunks` argument here):
flush the pending colored batch when the capacity or the draw state demands
it, flush the pending textured batch if non-empty, record the new draw
state, then run the vertex callback. -/
def WgpuGraphics.coloredSubmit (g0 : WgpuGraphics) (draw_state : DrawState)
    (chunks : List (List ColoredPipelineInput)) : Option WgpuGraphics :=
  let g1 := if 0 < g0.colored_data.length then
      (if SOFT_BUFFER_LIMIT ≤ g0.colored_data.length + BUFFER_SIZE ∨ draw_state ≠ g0.draw_state
       then g0.command_colored else g0)
    else g0
  (if 0 < g1.textured_data.length then g1.command_textured else some g1).map fun g2 =>
    (g2.setDS draw_state).coloredFold chunks

/-- The shared body of `tri_list_uv`/`tri_list_uv_c`: flush the pending
colored batch if non-empty, flush the pending textured batch when the
capacity, the draw state or the texture identity demands it, record the new
texture and draw state, then run the vertex callback. -/
def WgpuGraphics.texturedSubmit (g0 : WgpuGraphics) (draw_state : DrawState)
    (texture : Texture) (chunks : List (List TexturedPipelineInput)) : Option WgpuGraphics :=
  let g1 := if 0 < g0.colored_data.length then g0.command_colored else g0
  (if 0 < g1.textured_data.length then
     (if SOFT_BUFFER_LIMIT ≤ g1.textured_data.length + BUFFER_SIZE ∨ draw_state ≠ g1.draw_state
      then g1.command_textured
      else match g1.texture with
        | some prev_texture =>
          if texture ≠ prev_texture then g1.command_textured else some g1
        | Option.none => some g1)
   else some g1).bind fun g2 =>
    (g2.setTexDS texture draw_state).texturedFold chunks

/-- `WgpuGraphics::tri_list` with the callback's chunk sequence made explicit. -/
def WgpuGraphics.tri_list (g0 : WgpuGraphics) (draw_state : DrawState) (color : Vec4)
    (chunks : List (List Vec2)) : Option WgpuGraphics :=
  g0.coloredSubmit draw_state (chunks.map (coloredVerts color))

/-- `WgpuGraphics::tri_list_c` with the callback's chunk sequence made explicit. -/
def WgpuGraphics.tri_list_c (g0 : WgpuGraphics) (draw_state : DrawState)
    (chunks : List (List Vec2 × List Vec4)) : Option WgpuGraphics :=
  g0.coloredSubmit draw_state (chunks.map coloredVertsC)

/-- `WgpuGraphics::tri_list_uv` with the callback's chunk sequence made explicit. -/
def WgpuGraphics.tri_list_uv (g0 : WgpuGraphics) (draw_state : DrawState) (color : Vec4)
    (texture : Texture) (chunks : List (List Vec2 × List Vec2)) : Option WgpuGraphics :=
  g0.texturedSubmit draw_state texture (chunks.map (texturedVerts color))

/-- `WgpuGraphics::tri_list_uv_c` with the callback's chunk sequence made explicit. -/
def WgpuGraphics.tri_list_uv_c (g0 : WgpuGraphics) (draw_state : DrawState)
    (texture : Texture) (chunks : List (List Vec2 × List Vec2 × List Vec4)) :
    Option WgpuGraphics :=
  g0.texturedSubmit draw_state texture (chunks.map texturedVertsC)

/-- The flush pattern shared by `clear_color`, `clear_stencil` and `draw` in
the source: flush the pending colored batch if non-empty, then the pending
textured batch if non-empty. -/
def WgpuGraphics.flushBoth (g0 : WgpuGraphics) : Option WgpuGraphics :=
  let g1 := if 0 < g0.colored_data.length then g0.command_colored else g0
  if 0 < g1.textured_data.length then g1.command_textured else some g1

/-- Records one further command into the encoder. -/
def WgpuGraphics.pushCmd (g : WgpuGraphics) (c : Cmd) : WgpuGraphics :=
  { g with cmds := g.cmds ++ [c] }

/-- `WgpuGraphics::clear_color`: flush both pending batches, then record a
pass clearing the color attachment to `color` and loading the stencil
attachment. -/
def WgpuGraphics.clear_color (g0 : WgpuGraphics) (color : Vec4) : Option WgpuGraphics :=
  g0.flushBoth.map fun g2 =>
    g2.pushCmd (Cmd.clearPass (LoadOp.clear (to_wgpu_color color)) LoadOp.load)

/-- `WgpuGraphics::clear_stencil`: flush both pending batches, then record a
pass clearing the stencil attachment to `value` (the `u8 -> u32` cast is the
identity on `Nat`) and loading the color attachment. -/
def WgpuGraphics.clear_stencil (g0 : WgpuGraphics) (value : Nat) : Option WgpuGraphics :=
  g0.flushBoth.map fun g2 =>
    g2.pushCmd (Cmd.clearPass LoadOp.load (LoadOp.clear value))

/-- `WgpuGraphics::draw`: flush both residual batches and finish the encoder;
the resulting `cmds` list is the returned command buffer's content. -/
def WgpuGraphics.draw (g0 : WgpuGraphics) : Option WgpuGraphics :=
  g0.flushBoth

/-- `WgpuGraphics::new`: a fresh frame over the engine; the stencil attachment
and command encoder creation are modelled by the empty command list. -/
def WgpuGraphics.new (w : Wgpu2d) (width height : Nat) : WgpuGraphics :=
  { wgpu2d := w, width := width, height := height,
    draw_state := DrawState.default, texture := Option.none,
    cmds := [], nextBufferId := 0 }

/-- A frame at the start of a `Wgpu2d::draw` invocation on a freshly built
engine (both pending buffers empty). -/
def initialFrame (width height : Nat) : WgpuGraphics :=
  WgpuGraphics.new Wgpu2d.new width height

/-- One public entry-point invocation within a frame, with the vertex
callbacks' chunk sequences made explicit. -/
inductive FrameOp where
  | clear_color (color : Vec4)
  | clear_stencil (value : Nat)
  | tri_list (ds : DrawState) (color : Vec4) (chunks : List (List Vec2))
  | tri_list_c (ds : DrawState) (chunks : List (List Vec2 × List Vec4))
  | tri_list_uv (ds : DrawState) (color : Vec4) (texture : Texture)
      (chunks : List (List Vec2 × List Vec2))
  | tri_list_uv_c (ds : DrawState) (texture : Texture)
      (chunks : List (List Vec2 × List Vec2 × List Vec4))
deriving DecidableEq, Repr

/-- Executes one entry point on the frame state. -/
def stepOp (g : WgpuGraphics) : FrameOp → Option WgpuGraphics
  | FrameOp.clear_color color => g.clear_color color
  | FrameOp.clear_stencil value => g.clear_stencil value
  | FrameOp.tri_list ds color chunks => g.tri_list ds color chunks
  | FrameOp.tri_list_c ds chunks => g.tri_list_c ds chunks
  | FrameOp.tri_list_uv ds color texture chunks => g.tri_list_uv ds color texture chunks
  | FrameOp.tri_list_uv_c ds texture chunks => g.tri_list_uv_c ds texture chunks

/-- Executes a sequence of entry points on the frame state. -/
def runOps (g : WgpuGraphics) : List FrameOp → Option WgpuGraphics
  | [] => some g
  | op :: ops => (stepOp g op).bind fun g1 => runOps g1 ops

/-- Flattens a chunk sequence. -/
def flatVerts {α : Type} : List (List α) → List α
  | [] => []
  | l :: ls => l ++ flatVerts ls

/-- One observable drawing event: a vertex drawn under a draw state (and
texture), or a clear of an attachment. -/
inductive Obs where
  | colored (v : ColoredPipelineInput) (state : DrawState)
  | textured (v : TexturedPipelineInput) (state : DrawState) (texture : Texture)
  | clearColor (c : WgpuColor)
  | clearStencil (v : Nat)
deriving DecidableEq, Repr

/-- The observable events of one recorded command, in order. -/
def obsOfCmd : Cmd → List Obs
  | Cmd.colored c => c.verts.map fun v => Obs.colored v c.state
  | Cmd.textured c => c.verts.map fun v => Obs.textured v c.state c.texture
  | Cmd.clearPass colorLoad stencilLoad =>
    (match colorLoad with
     | LoadOp.clear c => [Obs.clearColor c]
     | LoadOp.load => []) ++
    (match stencilLoad with
     | LoadOp.clear v => [Obs.clearStencil v]
     | LoadOp.load => [])

/-- The observable events of a command sequence, in order. -/
def obsOfCmds : List Cmd → List Obs
  | [] => []
  | c :: cs => obsOfCmd c ++ obsOfCmds cs

/-- The observable events still pending in the accumulator buffers: the
colored pending vertices under the current draw state, then the textured
pending vertices under the current draw state and texture (in every
reachable state at most one of the two buffers is non-empty). -/
def pendingObs (g : WgpuGraphics) : List Obs :=
  (g.colored_data.map fun v => Obs.colored v g.draw_state) ++
  (g.textured_data.map fun v => Obs.textured v g.draw_state (g.texture.getD ⟨0⟩))

/-- The naive reference semantics of one entry point: execute it immediately
and independently — every submitted vertex is drawn at once, in submission
order, under exactly the draw state (and texture) of its own submit call. -/
def refOp : FrameOp → List Obs
  | FrameOp.clear_color color => [Obs.clearColor (to_wgpu_color color)]
  | FrameOp.clear_stencil value => [Obs.clearStencil value]
  | FrameOp.tri_list ds color chunks =>
    (flatVerts (chunks.map (coloredVerts color))).map fun v => Obs.colored v ds
  | FrameOp.tri_list_c ds chunks =>
    (flatVerts (chunks.map coloredVertsC)).map fun v => Obs.colored v ds
  | FrameOp.tri_list_uv ds color texture chunks =>
    (flatVerts (chunks.map (texturedVerts color))).map fun v => Obs.textured v ds texture
  | FrameOp.tri_list_uv_c ds texture chunks =>
    (flatVerts (chunks.map texturedVertsC)).map fun v => Obs.textured v ds texture

/-- The naive reference semantics of a whole frame trace. -/
def refOps : List FrameOp → List Obs
  | [] => []
  | op :: ops => refOp op ++ refOps ops

theorem obsOfCmds_append (a b : List Cmd) :
    obsOfCmds (a ++ b) = obsOfCmds a ++ obsOfCmds b := by
  induction a with
  | nil => rfl
  | cons c cs ih => simp [obsOfCmds, ih]

@[simp] theorem setColored_colored_data (g : WgpuGraphics) (l : List ColoredPipelineInput) :
    (g.setColored l).colored_data = l := rfl

@[simp] theorem setColored_textured_data (g : WgpuGraphics) (l : List ColoredPipelineInput) :
    (g.setColored l).textured_data = g.textured_data := rfl

@[simp] theorem setColored_draw_state (g : WgpuGraphics) (l : List ColoredPipelineInput) :
    (g.setColored l).draw_state = g.draw_state := rfl

@[simp] theorem setColored_texture (g : WgpuGraphics) (l : List ColoredPipelineInput) :
    (g.setColored l).texture = g.texture := rfl

@[simp] theorem setColored_cmds (g : WgpuGraphics) (l : List ColoredPipelineInput) :
    (g.setColored l).cmds = g.cmds := rfl

@[simp] theorem setColored_width (g : WgpuGraphics) (l : List ColoredPipelineInput) :
    (g.setColored l).width = g.width := rfl

@[simp] theorem setColored_height (g : WgpuGraphics) (l : List ColoredPipelineInput) :
    (g.setColored l).height = g.height := rfl

@[simp] theorem setColored_pipelines (g : WgpuGraphics) (l : List ColoredPipelineInput) :
    (g.setColored l).wgpu2d.colored_render_pipelines = g.wgpu2d.colored_render_pipelines ∧
    (g.setColored l).wgpu2d.textured_render_pipelines = g.wgpu2d.textured_render_pipelines :=
  ⟨rfl, rfl⟩

@[simp] theorem setTextured_textured_data (g : WgpuGraphics) (l : List TexturedPipelineInput) :
    (g.setTextured l).textured_data = l := rfl

@[simp] theorem setTextured_colored_data (g : WgpuGraphics) (l : List TexturedPipelineInput) :
    (g.setTextured l).colored_data = g.colored_data := rfl

@[simp] theorem setTextured_draw_state (g : WgpuGraphics) (l : List TexturedPipelineInput) :
    (g.setTextured l).draw_state = g.draw_state := rfl

@[simp] theorem setTextured_texture (g : WgpuGraphics) (l : List TexturedPipelineInput) :
    (g.setTextured l).texture = g.texture := rfl

@[simp] theorem setTextured_cmds (g : WgpuGraphics) (l : List TexturedPipelineInput) :
    (g.setTextured l).cmds = g.cmds := rfl

@[simp] theorem setTextured_width (g : WgpuGraphics) (l : List TexturedPipelineInput) :
    (g.setTextured l).width = g.width := rfl

@[simp] theorem setTextured_height (g : WgpuGraphics) (l : List TexturedPipelineInput) :
    (g.setTextured l).height = g.height := rfl

@[simp] theorem command_colored_colored_data (g : WgpuGraphics) :
    g.command_colored.colored_data = [] := rfl

@[simp] theorem command_colored_textured_data (g : WgpuGraphics) :
    g.command_colored.textured_data = g.textured_data := rfl

@[simp] theorem command_colored_draw_state (g : WgpuGraphics) :
    g.command_colored.draw_state = g.draw_state := rfl

@[simp] theorem command_colored_texture (g : WgpuGraphics) :
    g.command_colored.texture = g.texture := rfl

@[simp] theorem command_colored_cmds (g : WgpuGraphics) :
    g.command_colored.cmds = g.cmds ++ [Cmd.colored g.coloredCallOf] := rfl

@[simp] theorem command_colored_width (g : WgpuGraphics) :
    g.command_colored.width = g.width := rfl

@[simp] theorem command_colored_height (g : WgpuGraphics) :
    g.command_colored.height = g.height := rfl

@[simp] theorem command_colored_colored_pipelines (g : WgpuGraphics) :
    g.command_colored.wgpu2d.colored_render_pipelines = g.wgpu2d.colored_render_pipelines := rfl

@[simp] theorem command_colored_textured_pipelines (g : WgpuGraphics) :
    g.command_colored.wgpu2d.textured_render_pipelines = g.wgpu2d.textured_render_pipelines := rfl

@[simp] theorem command_colored_nextBufferId (g : WgpuGraphics) :
    g.command_colored.nextBufferId = g.nextBufferId + 1 := rfl

@[simp] theorem coloredCallOf_verts (g : WgpuGraphics) :
    g.coloredCallOf.verts = g.colored_data := rfl

@[simp] theorem coloredCallOf_state (g : WgpuGraphics) :
    g.coloredCallOf.state = g.draw_state := rfl

theorem command_textured_eq (g : WgpuGraphics) (tex : Texture) (h : g.texture = some tex) :
    g.command_textured =
      some { wgpu2d := { g.wgpu2d with textured_data := [] },
             width := g.width, height := g.height,
             draw_state := g.draw_state, texture := g.texture,
             cmds := g.cmds ++ [Cmd.textured (g.texturedCallOf tex)],
             nextBufferId := g.nextBufferId + 1 } := by
  unfold WgpuGraphics.command_textured
  rw [h]

theorem command_textured_none (g : WgpuGraphics) (h : g.texture = Option.none) :
    g.command_textured = Option.none := by
  unfold WgpuGraphics.command_textured
  rw [h]

/-- All observable events a frame state accounts for: the events already
recorded into the encoder followed by the events still pending in the
accumulator buffers. -/
def totalObs (g : WgpuGraphics) : List Obs :=
  obsOfCmds g.cmds ++ pendingObs g

/-- A recorded command is a colored draw pass. -/
def Cmd.isColoredCmd : Cmd → Prop
  | Cmd.colored _ => True
  | _ => False

/-- A recorded command is a textured draw pass. -/
def Cmd.isTexturedCmd : Cmd → Prop
  | Cmd.textured _ => True
  | _ => False

/-- A recorded command draws at most the soft capacity of vertices. -/
def cmdBounded : Cmd → Prop
  | Cmd.colored c => c.verts.length ≤ SOFT_BUFFER_LIMIT
  | Cmd.textured c => c.verts.length ≤ SOFT_BUFFER_LIMIT
  | Cmd.clearPass _ _ => True

theorem command_colored_totalObs (g : WgpuGraphics) :
    totalObs g.command_colored = totalObs g := by
  simp [totalObs, pendingObs, obsOfCmds_append, obsOfCmds, obsOfCmd,
    WgpuGraphics.coloredCallOf]

theorem command_textured_spec (g : WgpuGraphics) (tex : Texture) (h : g.texture = some tex) :
    ∃ g1, g.command_textured = some g1 ∧
      g1.colored_data = g.colored_data ∧ g1.textured_data = [] ∧
      g1.draw_state = g.draw_state ∧ g1.texture = g.texture ∧
      g1.width = g.width ∧ g1.height = g.height ∧
      g1.wgpu2d.colored_render_pipelines = g.wgpu2d.colored_render_pipelines ∧
      g1.wgpu2d.textured_render_pipelines = g.wgpu2d.textured_render_pipelines ∧
      g1.cmds = g.cmds ++ [Cmd.textured (g.texturedCallOf tex)] ∧
      g1.nextBufferId = g.nextBufferId + 1 := by
  refine ⟨_, command_textured_eq g tex h, rfl, rfl, rfl, rfl, rfl, rfl, rfl, rfl, rfl, rfl⟩

theorem texturedCallOf_verts (g : WgpuGraphics) (tex : Texture) :
    (g.texturedCallOf tex).verts = g.textured_data := rfl

theorem texturedCallOf_state (g : WgpuGraphics) (tex : Texture) :
    (g.texturedCallOf tex).state = g.draw_state := rfl

theorem texturedCallOf_texture (g : WgpuGraphics) (tex : Texture) :
    (g.texturedCallOf tex).texture = tex := rfl

theorem command_textured_totalObs (g g1 : WgpuGraphics) (tex : Texture)
    (h : g.texture = some tex) (hcol : g.colored_data = [])
    (hstep : g.command_textured = some g1) :
    totalObs g1 = totalObs g := by
  obtain ⟨g2, hg2, hc, ht, hds, htex, _, _, _, _, hcmds, _⟩ := command_textured_spec g tex h
  rw [hstep] at hg2
  cases hg2
  simp [totalObs, pendingObs, hc, ht, hds, htex, hcmds, hcol, obsOfCmds_append, obsOfCmds,
    obsOfCmd, texturedCallOf_verts, texturedCallOf_state, texturedCallOf_texture, h]

theorem BUFFER_SIZE_le_limit : BUFFER_SIZE ≤ SOFT_BUFFER_LIMIT := by
  decide

theorem coloredAppend_fields (g : WgpuGraphics) (vs : List ColoredPipelineInput) :
    (g.coloredAppend vs).textured_data = g.textured_data ∧
    (g.coloredAppend vs).draw_state = g.draw_state ∧
    (g.coloredAppend vs).texture = g.texture ∧
    (g.coloredAppend vs).width = g.width ∧
    (g.coloredAppend vs).height = g.height ∧
    (g.coloredAppend vs).wgpu2d.colored_render_pipelines = g.wgpu2d.colored_render_pipelines ∧
    (g.coloredAppend vs).wgpu2d.textured_render_pipelines = g.wgpu2d.textured_render_pipelines := by
  unfold WgpuGraphics.coloredAppend
  split <;> simp

theorem coloredAppend_cmds (g : WgpuGraphics) (vs : List ColoredPipelineInput) :
    ∃ extra, (g.coloredAppend vs).cmds = g.cmds ++ extra ∧
      ∀ c ∈ extra, c.isColoredCmd := by
  unfold WgpuGraphics.coloredAppend
  split
  · exact ⟨[Cmd.colored g.coloredCallOf], by simp, by simp [Cmd.isColoredCmd]⟩
  · exact ⟨[], by simp, by simp⟩

theorem coloredAppend_totalObs (g : WgpuGraphics) (vs : List ColoredPipelineInput)
    (hT : g.textured_data = []) :
    totalObs (g.coloredAppend vs) =
      totalObs g ++ vs.map fun v => Obs.colored v g.draw_state := by
  unfold WgpuGraphics.coloredAppend
  split
  · have h1 := command_colored_totalObs g
    simp [totalObs, pendingObs, hT] at h1 ⊢
    simp [h1]
  · simp [totalObs, pendingObs, hT]

theorem coloredAppend_cap (g : WgpuGraphics) (vs : List ColoredPipelineInput)
    (hvs : vs.length ≤ BUFFER_SIZE) (hlen : g.colored_data.length ≤ SOFT_BUFFER_LIMIT) :
    (g.coloredAppend vs).colored_data.length ≤ SOFT_BUFFER_LIMIT ∧
    ∀ c ∈ (g.coloredAppend vs).cmds, c ∈ g.cmds ∨ cmdBounded c := by
  unfold WgpuGraphics.coloredAppend
  split
  · constructor
    · simpa using le_trans hvs BUFFER_SIZE_le_limit
    · intro c hc
      simp at hc
      rcases hc with hc | hc
      · exact Or.inl hc
      · subst hc
        exact Or.inr (by simpa [cmdBounded] using hlen)
  · rename_i hno
    constructor
    · have : g.colored_data.length + BUFFER_SIZE < SOFT_BUFFER_LIMIT := by omega
      simp
      omega
    · intro c hc
      simp at hc
      exact Or.inl hc

theorem coloredFold_fields (chunks : List (List ColoredPipelineInput)) (g : WgpuGraphics) :
    (g.coloredFold chunks).textured_data = g.textured_data ∧
    (g.coloredFold chunks).draw_state = g.draw_state ∧
    (g.coloredFold chunks).texture = g.texture ∧
    (g.coloredFold chunks).width = g.width ∧
    (g.coloredFold chunks).height = g.height ∧
    (g.coloredFold chunks).wgpu2d.colored_render_pipelines = g.wgpu2d.colored_render_pipelines ∧
    (g.coloredFold chunks).wgpu2d.textured_render_pipelines = g.wgpu2d.textured_render_pipelines := by
  induction chunks generalizing g with
  | nil => simp [WgpuGraphics.coloredFold]
  | cons vs rest ih =>
    obtain ⟨a1, a2, a3, a4, a5, a6, a7⟩ := coloredAppend_fields g vs
    obtain ⟨b1, b2, b3, b4, b5, b6, b7⟩ := ih (g.coloredAppend vs)
    simp only [WgpuGraphics.coloredFold]
    exact ⟨b1.trans a1, b2.trans a2, b3.trans a3, b4.trans a4, b5.trans a5,
      b6.trans a6, b7.trans a7⟩

theorem coloredFold_cmds (chunks : List (List ColoredPipelineInput)) (g : WgpuGraphics) :
    ∃ extra, (g.coloredFold chunks).cmds = g.cmds ++ extra ∧
      ∀ c ∈ extra, c.isColoredCmd := by
  induction chunks generalizing g with
  | nil => exact ⟨[], by simp [WgpuGraphics.coloredFold], by simp⟩
  | cons vs rest ih =>
    obtain ⟨e1, he1, ha1⟩ := coloredAppend_cmds g vs
    obtain ⟨e2, he2, ha2⟩ := ih (g.coloredAppend vs)
    refine ⟨e1 ++ e2, ?_, ?_⟩
    · simp only [WgpuGraphics.coloredFold]
      rw [he2, he1, List.append_assoc]
    · intro c hc
      rcases List.mem_append.mp hc with hc | hc
      · exact ha1 c hc
      · exact ha2 c hc

theorem coloredFold_totalObs (chunks : List (List ColoredPipelineInput)) (g : WgpuGraphics)
    (hT : g.textured_data = []) :
    totalObs (g.coloredFold chunks) =
      totalObs g ++ (flatVerts chunks).map fun v => Obs.colored v g.draw_state := by
  induction chunks generalizing g with
  | nil => simp [WgpuGraphics.coloredFold, flatVerts]
  | cons vs rest ih =>
    obtain ⟨a1, a2, _⟩ := coloredAppend_fields g vs
    have h2 := ih (g.coloredAppend vs) (a1.trans hT)
    simp only [WgpuGraphics.coloredFold]
    rw [h2, a2, coloredAppend_totalObs g vs hT, flatVerts]
    simp

theorem coloredFold_cap (chunks : List (List ColoredPipelineInput)) (g : WgpuGraphics)
    (hvs : ∀ vs ∈ chunks, vs.length ≤ BUFFER_SIZE)
    (hlen : g.colored_data.length ≤ SOFT_BUFFER_LIMIT) :
    (g.coloredFold chunks).colored_data.length ≤ SOFT_BUFFER_LIMIT ∧
    ∀ c ∈ (g.coloredFold chunks).cmds, c ∈ g.cmds ∨ cmdBounded c := by
  induction chunks generalizing g with
  | nil =>
    refine ⟨by simpa [WgpuGraphics.coloredFold] using hlen, ?_⟩
    simp only [WgpuGraphics.coloredFold]
    exact fun c hc => Or.inl hc
  | cons vs rest ih =>
    obtain ⟨c1, c2⟩ := coloredAppend_cap g vs (hvs vs (by simp)) hlen
    obtain ⟨d1, d2⟩ := ih (g.coloredAppend vs) (fun w hw => hvs w (by simp [hw])) c1
    refine ⟨by simpa [WgpuGraphics.coloredFold] using d1, ?_⟩
    intro c hc
    simp only [WgpuGraphics.coloredFold] at hc
    rcases d2 c hc with hc2 | hc2
    · exact c2 c hc2
    · exact Or.inr hc2

@[simp] theorem setTextured_colored_pipelines (g : WgpuGraphics) (l : List TexturedPipelineInput) :
    (g.setTextured l).wgpu2d.colored_render_pipelines = g.wgpu2d.colored_render_pipelines := rfl

@[simp] theorem setTextured_textured_pipelines (g : WgpuGraphics) (l : List TexturedPipelineInput) :
    (g.setTextured l).wgpu2d.textured_render_pipelines = g.wgpu2d.textured_render_pipelines := rfl

@[simp] theorem setColored_colored_pipelines (g : WgpuGraphics) (l : List ColoredPipelineInput) :
    (g.setColored l).wgpu2d.colored_render_pipelines = g.wgpu2d.colored_render_pipelines := rfl

@[simp] theorem setColored_textured_pipelines (g : WgpuGraphics) (l : List ColoredPipelineInput) :
    (g.setColored l).wgpu2d.textured_render_pipelines = g.wgpu2d.textured_render_pipelines := rfl

theorem texturedAppend_spec (g : WgpuGraphics) (vs : List TexturedPipelineInput)
    (tex : Texture) (htex : g.texture = some tex) :
    ∃ g1, g.texturedAppend vs = some g1 ∧
      g1.colored_data = g.colored_data ∧
      g1.draw_state = g.draw_state ∧
      g1.texture = g.texture ∧
      g1.width = g.width ∧ g1.height = g.height ∧
      g1.wgpu2d.colored_render_pipelines = g.wgpu2d.colored_render_pipelines ∧
      g1.wgpu2d.textured_render_pipelines = g.wgpu2d.textured_render_pipelines ∧
      (∃ extra, g1.cmds = g.cmds ++ extra ∧ ∀ c ∈ extra, c.isTexturedCmd) ∧
      (g.colored_data = [] →
        totalObs g1 = totalObs g ++ vs.map fun v => Obs.textured v g.draw_state tex) ∧
      (vs.length ≤ BUFFER_SIZE → g.textured_data.length ≤ SOFT_BUFFER_LIMIT →
        g1.textured_data.length ≤ SOFT_BUFFER_LIMIT ∧
        ∀ c ∈ g1.cmds, c ∈ g.cmds ∨ cmdBounded c) := by
  unfold WgpuGraphics.texturedAppend
  split
  · obtain ⟨g2, hg2, f1, f2, f3, f4, f5, f6, f7, f8, hcmds, _⟩ :=
      command_textured_spec g tex htex
    rw [hg2]
    refine ⟨_, rfl, by simp [f1], by simp [f3], by simp [f4], by simp [f5], by simp [f6],
      by simp [f7], by simp [f8], ⟨[Cmd.textured (g.texturedCallOf tex)], by simp [hcmds], ?_⟩,
      ?_, ?_⟩
    · simp [Cmd.isTexturedCmd]
    · intro hcol
      have hobs := command_textured_totalObs g g2 tex htex hcol hg2
      have hpend2 : pendingObs g2 = [] := by
        simp [pendingObs, f1, f2, hcol]
      have hcmds2 : obsOfCmds g2.cmds = totalObs g := by
        simpa [totalObs, hpend2] using hobs
      simp [totalObs, pendingObs, f1, f2, f3, f4, hcol, htex, hcmds2]
    · intro hb hlen
      constructor
      · simpa [f2] using le_trans hb BUFFER_SIZE_le_limit
      · intro c hc
        simp [hcmds] at hc
        rcases hc with hc | hc
        · exact Or.inl hc
        · subst hc
          exact Or.inr (by simpa [cmdBounded, texturedCallOf_verts] using hlen)
  · rename_i hno
    refine ⟨_, rfl, by simp, by simp, by simp, by simp, by simp, by simp, by simp,
      ⟨[], by simp, by simp⟩, ?_, ?_⟩
    · intro hcol
      simp [totalObs, pendingObs, hcol, htex]
    · intro hb hlen
      constructor
      · have hlt : g.textured_data.length + BUFFER_SIZE < SOFT_BUFFER_LIMIT := by omega
        simp
        omega
      · intro c hc
        simp at hc
        exact Or.inl hc

theorem texturedFold_spec (chunks : List (List TexturedPipelineInput)) (g : WgpuGraphics)
    (tex : Texture) (htex : g.texture = some tex) :
    ∃ g1, g.texturedFold chunks = some g1 ∧
      g1.colored_data = g.colored_data ∧
      g1.draw_state = g.draw_state ∧
      g1.texture = g.texture ∧
      g1.width = g.width ∧ g1.height = g.height ∧
      g1.wgpu2d.colored_render_pipelines = g.wgpu2d.colored_render_pipelines ∧
      g1.wgpu2d.textured_render_pipelines = g.wgpu2d.textured_render_pipelines ∧
      (∃ extra, g1.cmds = g.cmds ++ extra ∧ ∀ c ∈ extra, c.isTexturedCmd) ∧
      (g.colored_data = [] →
        totalObs g1 = totalObs g ++ (flatVerts chunks).map fun v => Obs.textured v g.draw_state tex) ∧
      ((∀ vs ∈ chunks, vs.length ≤ BUFFER_SIZE) → g.textured_data.length ≤ SOFT_BUFFER_LIMIT →
        g1.textured_data.length ≤ SOFT_BUFFER_LIMIT ∧
        ∀ c ∈ g1.cmds, c ∈ g.cmds ∨ cmdBounded c) := by
  induction chunks generalizing g with
  | nil =>
    refine ⟨g, by simp [WgpuGraphics.texturedFold], rfl, rfl, rfl, rfl, rfl, rfl, rfl,
      ⟨[], by simp, by simp⟩, by simp [flatVerts], ?_⟩
    exact fun _ hlen => ⟨hlen, fun c hc => Or.inl hc⟩
  | cons vs rest ih =>
    obtain ⟨ga, hga, a1, a2, a3, a4, a5, a6, a7, ⟨ea, hea, haa⟩, aobs, acap⟩ :=
      texturedAppend_spec g vs tex htex
    obtain ⟨gb, hgb, b1, b2, b3, b4, b5, b6, b7, ⟨eb, heb, hab⟩, bobs, bcap⟩ :=
      ih ga (a3.trans htex)
    refine ⟨gb, ?_, ?_, b2.trans a2, b3.trans a3, b4.trans a4, b5.trans a5,
      b6.trans a6, b7.trans a7, ⟨ea ++ eb, ?_, ?_⟩, ?_, ?_⟩
    · simp only [WgpuGraphics.texturedFold, hga, Option.bind_some]
      exact hgb
    · exact b1.trans a1
    · rw [heb, hea, List.append_assoc]
    · intro c hc
      rcases List.mem_append.mp hc with hc | hc
      · exact haa c hc
      · exact hab c hc
    · intro hcol
      have h1 := aobs hcol
      have h2 := bobs (a1.trans hcol)
      rw [h2, h1, a2, flatVerts]
      simp
    · intro hvs hlen
      obtain ⟨c1, c2⟩ := acap (hvs vs (by simp)) hlen
      obtain ⟨d1, d2⟩ := bcap (fun w hw => hvs w (by simp [hw])) c1
      refine ⟨d1, ?_⟩
      intro c hc
      rcases d2 c hc with hc2 | hc2
      · exact c2 c hc2
      · exact Or.inr hc2

@[simp] theorem setDS_colored_data (g : WgpuGraphics) (ds : DrawState) :
    (g.setDS ds).colored_data = g.colored_data := rfl

@[simp] theorem setDS_textured_data (g : WgpuGraphics) (ds : DrawState) :
    (g.setDS ds).textured_data = g.textured_data := rfl

@[simp] theorem setDS_draw_state (g : WgpuGraphics) (ds : DrawState) :
    (g.setDS ds).draw_state = ds := rfl

@[simp] theorem setDS_texture (g : WgpuGraphics) (ds : DrawState) :
    (g.setDS ds).texture = g.texture := rfl

@[simp] theorem setDS_cmds (g : WgpuGraphics) (ds : DrawState) :
    (g.setDS ds).cmds = g.cmds := rfl

@[simp] theorem setDS_width (g : WgpuGraphics) (ds : DrawState) :
    (g.setDS ds).width = g.width := rfl

@[simp] theorem setDS_height (g : WgpuGraphics) (ds : DrawState) :
    (g.setDS ds).height = g.height := rfl

@[simp] theorem setDS_colored_pipelines (g : WgpuGraphics) (ds : DrawState) :
    (g.setDS ds).wgpu2d.colored_render_pipelines = g.wgpu2d.colored_render_pipelines := rfl

@[simp] theorem setDS_textured_pipelines (g : WgpuGraphics) (ds : DrawState) :
    (g.setDS ds).wgpu2d.textured_render_pipelines = g.wgpu2d.textured_render_pipelines := rfl

@[simp] theorem setTexDS_colored_data (g : WgpuGraphics) (tex : Texture) (ds : DrawState) :
    (g.setTexDS tex ds).colored_data = g.colored_data := rfl

@[simp] theorem setTexDS_textured_data (g : WgpuGraphics) (tex : Texture) (ds : DrawState) :
    (g.setTexDS tex ds).textured_data = g.textured_data := rfl

@[simp] theorem setTexDS_draw_state (g : WgpuGraphics) (tex : Texture) (ds : DrawState) :
    (g.setTexDS tex ds).draw_state = ds := rfl

@[simp] theorem setTexDS_texture (g : WgpuGraphics) (tex : Texture) (ds : DrawState) :
    (g.setTexDS tex ds).texture = some tex := rfl

@[simp] theorem setTexDS_cmds (g : WgpuGraphics) (tex : Texture) (ds : DrawState) :
    (g.setTexDS tex ds).cmds = g.cmds := rfl

@[simp] theorem setTexDS_width (g : WgpuGraphics) (tex : Texture) (ds : DrawState) :
    (g.setTexDS tex ds).width = g.width := rfl

@[simp] theorem setTexDS_height (g : WgpuGraphics) (tex : Texture) (ds : DrawState) :
    (g.setTexDS tex ds).height = g.height := rfl

@[simp] theorem setTexDS_colored_pipelines (g : WgpuGraphics) (tex : Texture) (ds : DrawState) :
    (g.setTexDS tex ds).wgpu2d.colored_render_pipelines = g.wgpu2d.colored_render_pipelines := rfl

@[simp] theorem setTexDS_textured_pipelines (g : WgpuGraphics) (tex : Texture) (ds : DrawState) :
    (g.setTexDS tex ds).wgpu2d.textured_render_pipelines = g.wgpu2d.textured_render_pipelines := rfl

theorem setDS_totalObs (g : WgpuGraphics) (ds : DrawState)
    (h : g.colored_data = [] ∨ ds = g.draw_state) (hT : g.textured_data = []) :
    totalObs (g.setDS ds) = totalObs g := by
  rcases h with h | h
  · simp [totalObs, pendingObs, h, hT]
  · simp [totalObs, pendingObs, h, hT]

theorem setTexDS_totalObs (g : WgpuGraphics) (tex : Texture) (ds : DrawState)
    (hcol : g.colored_data = [])
    (h : g.textured_data = [] ∨ (g.texture = some tex ∧ ds = g.draw_state)) :
    totalObs (g.setTexDS tex ds) = totalObs g := by
  rcases h with h | ⟨h1, h2⟩
  · simp [totalObs, pendingObs, h, hcol]
  · simp [totalObs, pendingObs, hcol, h1, h2]

/-- The frame invariant: at most one of the two accumulator buffers is
non-empty, and a current texture is recorded whenever textured vertices
are pending. -/
def FrameInv (g : WgpuGraphics) : Prop :=
  (g.colored_data = [] ∨ g.textured_data = []) ∧
  (g.textured_data = [] ∨ ∃ tex, g.texture = some tex)

theorem coloredSubmit_tail (g2 : WgpuGraphics) (ds : DrawState)
    (chunks : List (List ColoredPipelineInput))
    (t2 : g2.textured_data = [])
    (t3 : g2.colored_data = [] ∨ ds = g2.draw_state) :
    totalObs ((g2.setDS ds).coloredFold chunks) =
      totalObs g2 ++ (flatVerts chunks).map (fun v => Obs.colored v ds) ∧
    ((g2.setDS ds).coloredFold chunks).textured_data = [] ∧
    ((g2.setDS ds).coloredFold chunks).texture = g2.texture ∧
    ((g2.setDS ds).coloredFold chunks).width = g2.width ∧
    ((g2.setDS ds).coloredFold chunks).height = g2.height ∧
    ((g2.setDS ds).coloredFold chunks).wgpu2d.colored_render_pipelines =
      g2.wgpu2d.colored_render_pipelines ∧
    ((g2.setDS ds).coloredFold chunks).wgpu2d.textured_render_pipelines =
      g2.wgpu2d.textured_render_pipelines ∧
    (∃ tail, ((g2.setDS ds).coloredFold chunks).cmds = g2.cmds ++ tail) := by
  obtain ⟨b1, b2, b3, b4, b5, b6, b7⟩ := coloredFold_fields chunks (g2.setDS ds)
  obtain ⟨extra, hextra, _⟩ := coloredFold_cmds chunks (g2.setDS ds)
  have hobs := coloredFold_totalObs chunks (g2.setDS ds) (by simpa using t2)
  refine ⟨?_, by simpa [t2] using b1, by simpa using b3, by simpa using b4, by simpa using b5,
    by simpa using b6, by simpa using b7, ⟨extra, by simpa using hextra⟩⟩
  rw [hobs, setDS_totalObs g2 ds t3 t2]
  simp

theorem coloredSubmit_spec (g0 : WgpuGraphics) (ds : DrawState)
    (chunks : List (List ColoredPipelineInput)) (hInv : FrameInv g0) :
    ∃ g1, g0.coloredSubmit ds chunks = some g1 ∧
      g1.textured_data = [] ∧
      FrameInv g1 ∧
      totalObs g1 = totalObs g0 ++ (flatVerts chunks).map (fun v => Obs.colored v ds) ∧
      g1.width = g0.width ∧ g1.height = g0.height ∧
      g1.wgpu2d.colored_render_pipelines = g0.wgpu2d.colored_render_pipelines ∧
      g1.wgpu2d.textured_render_pipelines = g0.wgpu2d.textured_render_pipelines ∧
      (∃ tail, g1.cmds = g0.cmds ++ tail) := by
  obtain ⟨hone, htex⟩ := hInv
  simp only [WgpuGraphics.coloredSubmit]
  by_cases h1 : 0 < g0.colored_data.length
  · have hcol : g0.colored_data ≠ [] := by
      intro h0
      rw [h0] at h1
      simp at h1
    have hT0 : g0.textured_data = [] := by
      rcases hone with h | h
      · exact absurd h hcol
      · exact h
    rw [if_pos h1]
    by_cases h2 : SOFT_BUFFER_LIMIT ≤ g0.colored_data.length + BUFFER_SIZE ∨ ds ≠ g0.draw_state
    · rw [if_pos h2]
      have hT1 : g0.command_colored.textured_data = [] := by simpa using hT0
      rw [if_neg (by simp [hT1])]
      obtain ⟨hobs, f1, f2, f3, f4, f5, f6, ⟨tail, htail⟩⟩ :=
        coloredSubmit_tail g0.command_colored ds chunks hT1 (Or.inl (by simp))
      refine ⟨_, rfl, f1, ⟨Or.inr f1, Or.inl f1⟩, ?_, by simpa using f3, by simpa using f4,
        by simpa using f5, by simpa using f6, ⟨Cmd.colored g0.coloredCallOf :: tail, ?_⟩⟩
      · rw [hobs, command_colored_totalObs]
      · rw [htail]
        simp
    · rw [if_neg h2]
      push_neg at h2
      rw [if_neg (by simp [hT0])]
      obtain ⟨hobs, f1, f2, f3, f4, f5, f6, ⟨tail, htail⟩⟩ :=
        coloredSubmit_tail g0 ds chunks hT0 (Or.inr h2.2)
      exact ⟨_, rfl, f1, ⟨Or.inr f1, Or.inl f1⟩, hobs, f3, f4, f5, f6, ⟨tail, htail⟩⟩
  · have hcol : g0.colored_data = [] := by
      cases hl : g0.colored_data with
      | nil => rfl
      | cons a l =>
        rw [hl] at h1
        simp at h1
    rw [if_neg h1]
    by_cases h3 : 0 < g0.textured_data.length
    · have hTne : g0.textured_data ≠ [] := by
        intro h0
        rw [h0] at h3
        simp at h3
      obtain ⟨tex, htexs⟩ := htex.resolve_left hTne
      obtain ⟨g2, hg2, f1, f2, f3, f4, f5, f6, f7, f8, hcmds, _⟩ :=
        command_textured_spec g0 tex htexs
      rw [if_pos h3, hg2]
      have hobs2 := command_textured_totalObs g0 g2 tex htexs hcol hg2
      obtain ⟨hobs, e1, e2, e3, e4, e5, e6, ⟨tail, htail⟩⟩ :=
        coloredSubmit_tail g2 ds chunks f2 (Or.inl (f1.trans hcol))
      refine ⟨_, rfl, e1, ⟨Or.inr e1, Or.inl e1⟩, ?_, by rw [e3, f5], by rw [e4, f6],
        by rw [e5, f7], by rw [e6, f8], ⟨Cmd.textured (g0.texturedCallOf tex) :: tail, ?_⟩⟩
      · rw [hobs, hobs2]
      · rw [htail, hcmds]
        simp
    · have hT0 : g0.textured_data = [] := by
        cases hl : g0.textured_data with
        | nil => rfl
        | cons a l =>
          rw [hl] at h3
          simp at h3
      rw [if_neg h3]
      obtain ⟨hobs, f1, f2, f3, f4, f5, f6, ⟨tail, htail⟩⟩ :=
        coloredSubmit_tail g0 ds chunks hT0 (Or.inl hcol)
      exact ⟨_, rfl, f1, ⟨Or.inr f1, Or.inl f1⟩, hobs, f3, f4, f5, f6, ⟨tail, htail⟩⟩

theorem texturedSubmit_tail (g2 : WgpuGraphics) (ds : DrawState) (texture : Texture)
    (chunks : List (List TexturedPipelineInput))
    (hcol : g2.colored_data = [])
    (h : g2.textured_data = [] ∨ (g2.texture = some texture ∧ ds = g2.draw_state)) :
    ∃ g1, (g2.setTexDS texture ds).texturedFold chunks = some g1 ∧
      g1.colored_data = [] ∧ g1.texture = some texture ∧
      totalObs g1 = totalObs g2 ++ (flatVerts chunks).map (fun v => Obs.textured v ds texture) ∧
      g1.width = g2.width ∧ g1.height = g2.height ∧
      g1.wgpu2d.colored_render_pipelines = g2.wgpu2d.colored_render_pipelines ∧
      g1.wgpu2d.textured_render_pipelines = g2.wgpu2d.textured_render_pipelines ∧
      (∃ tail, g1.cmds = g2.cmds ++ tail ∧ ∀ c ∈ tail, c.isTexturedCmd) := by
  obtain ⟨g1, hg1, b1, b2, b3, b4, b5, b6, b7, ⟨extra, hextra, hannot⟩, bobs, _⟩ :=
    texturedFold_spec chunks (g2.setTexDS texture ds) texture (by simp)
  have hobs := bobs (by simpa using hcol)
  refine ⟨g1, hg1, by simpa [hcol] using b1, by simpa using b3, ?_, by simpa using b4,
    by simpa using b5, by simpa using b6, by simpa using b7,
    ⟨extra, by simpa using hextra, hannot⟩⟩
  rw [hobs, setTexDS_totalObs g2 texture ds hcol h]
  simp

theorem texturedSubmit_stage2 (gA : WgpuGraphics) (ds : DrawState) (texture : Texture)
    (chunks : List (List TexturedPipelineInput))
    (hAcol : gA.colored_data = [])
    (hAtex : gA.textured_data = [] ∨ ∃ t, gA.texture = some t) :
    ∃ g1, ((if 0 < gA.textured_data.length then
        (if SOFT_BUFFER_LIMIT ≤ gA.textured_data.length + BUFFER_SIZE ∨ ds ≠ gA.draw_state
         then gA.command_textured
         else match gA.texture with
           | some prev_texture =>
             if texture ≠ prev_texture then gA.command_textured else some gA
           | Option.none => some gA)
      else some gA).bind fun g2 => (g2.setTexDS texture ds).texturedFold chunks) = some g1 ∧
      g1.colored_data = [] ∧ g1.texture = some texture ∧
      totalObs g1 = totalObs gA ++ (flatVerts chunks).map (fun v => Obs.textured v ds texture) ∧
      g1.width = gA.width ∧ g1.height = gA.height ∧
      g1.wgpu2d.colored_render_pipelines = gA.wgpu2d.colored_render_pipelines ∧
      g1.wgpu2d.textured_render_pipelines = gA.wgpu2d.textured_render_pipelines ∧
      (∃ tail, g1.cmds = gA.cmds ++ tail ∧ ∀ c ∈ tail, c.isTexturedCmd) := by
  by_cases hT : 0 < gA.textured_data.length
  · have hTne : gA.textured_data ≠ [] := by
      intro h0
      rw [h0] at hT
      simp at hT
    obtain ⟨prev, hprev⟩ := hAtex.resolve_left hTne
    rw [if_pos hT]
    by_cases hF : SOFT_BUFFER_LIMIT ≤ gA.textured_data.length + BUFFER_SIZE ∨ ds ≠ gA.draw_state
    · rw [if_pos hF]
      obtain ⟨g2, hg2, f1, f2, f3, f4, f5, f6, f7, f8, hcmds, _⟩ :=
        command_textured_spec gA prev hprev
      have hobs2 := command_textured_totalObs gA g2 prev hprev hAcol hg2
      rw [hg2]
      obtain ⟨g1, hg1, e1, e2, e3, e4, e5, e6, e7, ⟨tail, htail, hta⟩⟩ :=
        texturedSubmit_tail g2 ds texture chunks (f1.trans hAcol) (Or.inl f2)
      refine ⟨g1, by simpa using hg1, e1, e2, ?_, by rw [e4, f5], by rw [e5, f6],
        by rw [e6, f7], by rw [e7, f8],
        ⟨Cmd.textured (gA.texturedCallOf prev) :: tail, ?_, ?_⟩⟩
      · rw [e3, hobs2]
      · rw [htail, hcmds]
        simp
      · intro c hc
        rcases List.mem_cons.mp hc with hc | hc
        · subst hc
          exact trivial
        · exact hta c hc
    · rw [if_neg hF]
      push_neg at hF
      simp only [hprev]
      by_cases hTex : texture ≠ prev
      · rw [if_pos hTex]
        obtain ⟨g2, hg2, f1, f2, f3, f4, f5, f6, f7, f8, hcmds, _⟩ :=
          command_textured_spec gA prev hprev
        have hobs2 := command_textured_totalObs gA g2 prev hprev hAcol hg2
        rw [hg2]
        obtain ⟨g1, hg1, e1, e2, e3, e4, e5, e6, e7, ⟨tail, htail, hta⟩⟩ :=
          texturedSubmit_tail g2 ds texture chunks (f1.trans hAcol) (Or.inl f2)
        refine ⟨g1, by simpa using hg1, e1, e2, ?_, by rw [e4, f5], by rw [e5, f6],
          by rw [e6, f7], by rw [e7, f8],
          ⟨Cmd.textured (gA.texturedCallOf prev) :: tail, ?_, ?_⟩⟩
        · rw [e3, hobs2]
        · rw [htail, hcmds]
          simp
        · intro c hc
          rcases List.mem_cons.mp hc with hc | hc
          · subst hc
            exact trivial
          · exact hta c hc
      · rw [if_neg hTex]
        push_neg at hTex
        obtain ⟨g1, hg1, e1, e2, e3, e4, e5, e6, e7, ⟨tail, htail, hta⟩⟩ :=
          texturedSubmit_tail gA ds texture chunks hAcol
            (Or.inr ⟨by rw [hprev, hTex], hF.2⟩)
        exact ⟨g1, by simpa using hg1, e1, e2, e3, e4, e5, e6, e7, ⟨tail, htail, hta⟩⟩
  · have hT0 : gA.textured_data = [] := by
      cases hl : gA.textured_data with
      | nil => rfl
      | cons a l =>
        rw [hl] at hT
        simp at hT
    rw [if_neg hT]
    obtain ⟨g1, hg1, e1, e2, e3, e4, e5, e6, e7, ⟨tail, htail, hta⟩⟩ :=
      texturedSubmit_tail gA ds texture chunks hAcol (Or.inl hT0)
    exact ⟨g1, by simpa using hg1, e1, e2, e3, e4, e5, e6, e7, ⟨tail, htail, hta⟩⟩

theorem texturedSubmit_spec (g0 : WgpuGraphics) (ds : DrawState) (texture : Texture)
    (chunks : List (List TexturedPipelineInput)) (hInv : FrameInv g0) :
    ∃ g1, g0.texturedSubmit ds texture chunks = some g1 ∧
      g1.colored_data = [] ∧
      g1.texture = some texture ∧
      FrameInv g1 ∧
      totalObs g1 = totalObs g0 ++ (flatVerts chunks).map (fun v => Obs.textured v ds texture) ∧
      g1.width = g0.width ∧ g1.height = g0.height ∧
      g1.wgpu2d.colored_render_pipelines = g0.wgpu2d.colored_render_pipelines ∧
      g1.wgpu2d.textured_render_pipelines = g0.wgpu2d.textured_render_pipelines ∧
      (∃ tail, g1.cmds = g0.cmds ++ tail) := by
  obtain ⟨hone, htex⟩ := hInv
  simp only [WgpuGraphics.texturedSubmit]
  by_cases h1 : 0 < g0.colored_data.length
  · rw [if_pos h1]
    obtain ⟨g1, hg1, e1, e2, e3, e4, e5, e6, e7, ⟨tail, htail, _⟩⟩ :=
      texturedSubmit_stage2 g0.command_colored ds texture chunks (by simp)
        (by simpa using htex)
    refine ⟨g1, hg1, e1, e2, ⟨Or.inl e1, Or.inr ⟨texture, e2⟩⟩, ?_, by simpa using e4,
      by simpa using e5, by simpa using e6, by simpa using e7,
      ⟨Cmd.colored g0.coloredCallOf :: tail, ?_⟩⟩
    · rw [e3, command_colored_totalObs]
    · rw [htail]
      simp
  · rw [if_neg h1]
    have hcol : g0.colored_data = [] := by
      cases hl : g0.colored_data with
      | nil => rfl
      | cons a l =>
        rw [hl] at h1
        simp at h1
    obtain ⟨g1, hg1, e1, e2, e3, e4, e5, e6, e7, ⟨tail, htail, _⟩⟩ :=
      texturedSubmit_stage2 g0 ds texture chunks hcol htex
    exact ⟨g1, hg1, e1, e2, ⟨Or.inl e1, Or.inr ⟨texture, e2⟩⟩, e3, e4, e5, e6, e7,
      ⟨tail, htail⟩⟩

@[simp] theorem pushCmd_colored_data (g : WgpuGraphics) (c : Cmd) :
    (g.pushCmd c).colored_data = g.colored_data := rfl

@[simp] theorem pushCmd_textured_data (g : WgpuGraphics) (c : Cmd) :
    (g.pushCmd c).textured_data = g.textured_data := rfl

@[simp] theorem pushCmd_draw_state (g : WgpuGraphics) (c : Cmd) :
    (g.pushCmd c).draw_state = g.draw_state := rfl

@[simp] theorem pushCmd_texture (g : WgpuGraphics) (c : Cmd) :
    (g.pushCmd c).texture = g.texture := rfl

@[simp] theorem pushCmd_cmds (g : WgpuGraphics) (c : Cmd) :
    (g.pushCmd c).cmds = g.cmds ++ [c] := rfl

@[simp] theorem pushCmd_width (g : WgpuGraphics) (c : Cmd) :
    (g.pushCmd c).width = g.width := rfl

@[simp] theorem pushCmd_height (g : WgpuGraphics) (c : Cmd) :
    (g.pushCmd c).height = g.height := rfl

@[simp] theorem pushCmd_colored_pipelines (g : WgpuGraphics) (c : Cmd) :
    (g.pushCmd c).wgpu2d.colored_render_pipelines = g.wgpu2d.colored_render_pipelines := rfl

@[simp] theorem pushCmd_textured_pipelines (g : WgpuGraphics) (c : Cmd) :
    (g.pushCmd c).wgpu2d.textured_render_pipelines = g.wgpu2d.textured_render_pipelines := rfl

theorem flushBoth_spec (g0 : WgpuGraphics) (hInv : FrameInv g0) :
    ∃ g2, g0.flushBoth = some g2 ∧
      g2.colored_data = [] ∧ g2.textured_data = [] ∧
      g2.draw_state = g0.draw_state ∧ g2.texture = g0.texture ∧
      totalObs g2 = totalObs g0 ∧
      g2.width = g0.width ∧ g2.height = g0.height ∧
      g2.wgpu2d.colored_render_pipelines = g0.wgpu2d.colored_render_pipelines ∧
      g2.wgpu2d.textured_render_pipelines = g0.wgpu2d.textured_render_pipelines ∧
      (∃ tail, g2.cmds = g0.cmds ++ tail ∧
        ∀ c ∈ tail, c.isColoredCmd ∨ c.isTexturedCmd) := by
  obtain ⟨hone, htex⟩ := hInv
  simp only [WgpuGraphics.flushBoth]
  by_cases h1 : 0 < g0.colored_data.length
  · have hcol : g0.colored_data ≠ [] := by
      intro h0
      rw [h0] at h1
      simp at h1
    have hT0 : g0.textured_data = [] := by
      rcases hone with h | h
      · exact absurd h hcol
      · exact h
    rw [if_pos h1]
    rw [if_neg (by simp [hT0])]
    refine ⟨g0.command_colored, rfl, by simp, by simpa using hT0, by simp, by simp,
      command_colored_totalObs g0, by simp, by simp, by simp, by simp,
      ⟨[Cmd.colored g0.coloredCallOf], by simp, ?_⟩⟩
    intro c hc
    simp at hc
    subst hc
    exact Or.inl trivial
  · have hcol : g0.colored_data = [] := by
      cases hl : g0.colored_data with
      | nil => rfl
      | cons a l =>
        rw [hl] at h1
        simp at h1
    rw [if_neg h1]
    by_cases h3 : 0 < g0.textured_data.length
    · have hTne : g0.textured_data ≠ [] := by
        intro h0
        rw [h0] at h3
        simp at h3
      obtain ⟨tex, htexs⟩ := htex.resolve_left hTne
      obtain ⟨g2, hg2, f1, f2, f3, f4, f5, f6, f7, f8, hcmds, _⟩ :=
        command_textured_spec g0 tex htexs
      rw [if_pos h3]
      refine ⟨g2, hg2, f1.trans hcol, f2, f3, f4,
        command_textured_totalObs g0 g2 tex htexs hcol hg2, f5, f6, f7, f8,
        ⟨[Cmd.textured (g0.texturedCallOf tex)], by simpa using hcmds, ?_⟩⟩
      intro c hc
      simp at hc
      subst hc
      exact Or.inr trivial
    · have hT0 : g0.textured_data = [] := by
        cases hl : g0.textured_data with
        | nil => rfl
        | cons a l =>
          rw [hl] at h3
          simp at h3
      rw [if_neg h3]
      exact ⟨g0, rfl, hcol, hT0, rfl, rfl, rfl, rfl, rfl, rfl, rfl,
        ⟨[], by simp, by simp⟩⟩

theorem pendingObs_nil (g : WgpuGraphics) (h1 : g.colored_data = [])
    (h2 : g.textured_data = []) : pendingObs g = [] := by
  simp [pendingObs, h1, h2]

theorem clear_color_spec (g0 : WgpuGraphics) (color : Vec4) (hInv : FrameInv g0) :
    ∃ g1, g0.clear_color color = some g1 ∧
      g1.colored_data = [] ∧ g1.textured_data = [] ∧ FrameInv g1 ∧
      totalObs g1 = totalObs g0 ++ [Obs.clearColor (to_wgpu_color color)] ∧
      g1.width = g0.width ∧ g1.height = g0.height ∧
      g1.wgpu2d.colored_render_pipelines = g0.wgpu2d.colored_render_pipelines ∧
      g1.wgpu2d.textured_render_pipelines = g0.wgpu2d.textured_render_pipelines ∧
      (∃ flushes, g1.cmds = g0.cmds ++ flushes ++
          [Cmd.clearPass (LoadOp.clear (to_wgpu_color color)) LoadOp.load] ∧
        ∀ c ∈ flushes, c.isColoredCmd ∨ c.isTexturedCmd) := by
  obtain ⟨g2, hg2, f1, f2, f3, f4, fobs, f5, f6, f7, f8, ⟨tail, htail, hdraw⟩⟩ :=
    flushBoth_spec g0 hInv
  refine ⟨_, by rw [WgpuGraphics.clear_color, hg2]; rfl, by simpa using f1,
    by simpa using f2, ⟨Or.inl (by simpa using f1), Or.inl (by simpa using f2)⟩, ?_,
    by simpa using f5, by simpa using f6, by simpa using f7, by simpa using f8,
    ⟨tail, by simp [htail], hdraw⟩⟩
  have hp2 : pendingObs g2 = [] := pendingObs_nil g2 f1 f2
  have hc2 : obsOfCmds g2.cmds = totalObs g0 := by
    simpa [totalObs, hp2] using fobs
  simp [totalObs, pendingObs, f1, f2, obsOfCmds_append, obsOfCmds, obsOfCmd, hc2]

theorem clear_stencil_spec (g0 : WgpuGraphics) (value : Nat) (hInv : FrameInv g0) :
    ∃ g1, g0.clear_stencil value = some g1 ∧
      g1.colored_data = [] ∧ g1.textured_data = [] ∧ FrameInv g1 ∧
      totalObs g1 = totalObs g0 ++ [Obs.clearStencil value] ∧
      g1.width = g0.width ∧ g1.height = g0.height ∧
      g1.wgpu2d.colored_render_pipelines = g0.wgpu2d.colored_render_pipelines ∧
      g1.wgpu2d.textured_render_pipelines = g0.wgpu2d.textured_render_pipelines ∧
      (∃ flushes, g1.cmds = g0.cmds ++ flushes ++
          [Cmd.clearPass LoadOp.load (LoadOp.clear value)] ∧
        ∀ c ∈ flushes, c.isColoredCmd ∨ c.isTexturedCmd) := by
  obtain ⟨g2, hg2, f1, f2, f3, f4, fobs, f5, f6, f7, f8, ⟨tail, htail, hdraw⟩⟩ :=
    flushBoth_spec g0 hInv
  refine ⟨_, by rw [WgpuGraphics.clear_stencil, hg2]; rfl, by simpa using f1,
    by simpa using f2, ⟨Or.inl (by simpa using f1), Or.inl (by simpa using f2)⟩, ?_,
    by simpa using f5, by simpa using f6, by simpa using f7, by simpa using f8,
    ⟨tail, by simp [htail], hdraw⟩⟩
  have hp2 : pendingObs g2 = [] := pendingObs_nil g2 f1 f2
  have hc2 : obsOfCmds g2.cmds = totalObs g0 := by
    simpa [totalObs, hp2] using fobs
  simp [totalObs, pendingObs, f1, f2, obsOfCmds_append, obsOfCmds, obsOfCmd, hc2]

theorem stepOp_spec (g0 : WgpuGraphics) (op : FrameOp) (hInv : FrameInv g0) :
    ∃ g1, stepOp g0 op = some g1 ∧ FrameInv g1 ∧
      totalObs g1 = totalObs g0 ++ refOp op ∧
      g1.width = g0.width ∧ g1.height = g0.height ∧
      g1.wgpu2d.colored_render_pipelines = g0.wgpu2d.colored_render_pipelines ∧
      g1.wgpu2d.textured_render_pipelines = g0.wgpu2d.textured_render_pipelines ∧
      (∃ tail, g1.cmds = g0.cmds ++ tail) := by
  cases op with
  | clear_color color =>
    obtain ⟨g1, h, _, _, hi, hobs, f5, f6, f7, f8, ⟨fl, hfl, _⟩⟩ :=
      clear_color_spec g0 color hInv
    exact ⟨g1, h, hi, hobs, f5, f6, f7, f8,
      ⟨fl ++ [Cmd.clearPass (LoadOp.clear (to_wgpu_color color)) LoadOp.load],
        by rw [hfl, List.append_assoc]⟩⟩
  | clear_stencil value =>
    obtain ⟨g1, h, _, _, hi, hobs, f5, f6, f7, f8, ⟨fl, hfl, _⟩⟩ :=
      clear_stencil_spec g0 value hInv
    exact ⟨g1, h, hi, hobs, f5, f6, f7, f8,
      ⟨fl ++ [Cmd.clearPass LoadOp.load (LoadOp.clear value)],
        by rw [hfl, List.append_assoc]⟩⟩
  | tri_list ds color chunks =>
    obtain ⟨g1, h, _, hi, hobs, f5, f6, f7, f8, htail⟩ :=
      coloredSubmit_spec g0 ds (chunks.map (coloredVerts color)) hInv
    exact ⟨g1, h, hi, hobs, f5, f6, f7, f8, htail⟩
  | tri_list_c ds chunks =>
    obtain ⟨g1, h, _, hi, hobs, f5, f6, f7, f8, htail⟩ :=
      coloredSubmit_spec g0 ds (chunks.map coloredVertsC) hInv
    exact ⟨g1, h, hi, hobs, f5, f6, f7, f8, htail⟩
  | tri_list_uv ds color texture chunks =>
    obtain ⟨g1, h, _, _, hi, hobs, f5, f6, f7, f8, htail⟩ :=
      texturedSubmit_spec g0 ds texture (chunks.map (texturedVerts color)) hInv
    exact ⟨g1, h, hi, hobs, f5, f6, f7, f8, htail⟩
  | tri_list_uv_c ds texture chunks =>
    obtain ⟨g1, h, _, _, hi, hobs, f5, f6, f7, f8, htail⟩ :=
      texturedSubmit_spec g0 ds texture (chunks.map texturedVertsC) hInv
    exact ⟨g1, h, hi, hobs, f5, f6, f7, f8, htail⟩

theorem runOps_spec (ops : List FrameOp) (g0 : WgpuGraphics) (hInv : FrameInv g0) :
    ∃ g1, runOps g0 ops = some g1 ∧ FrameInv g1 ∧
      totalObs g1 = totalObs g0 ++ refOps ops ∧
      g1.width = g0.width ∧ g1.height = g0.height ∧
      g1.wgpu2d.colored_render_pipelines = g0.wgpu2d.colored_render_pipelines ∧
      g1.wgpu2d.textured_render_pipelines = g0.wgpu2d.textured_render_pipelines ∧
      (∃ tail, g1.cmds = g0.cmds ++ tail) := by
  induction ops generalizing g0 with
  | nil => exact ⟨g0, rfl, hInv, by simp [refOps], rfl, rfl, rfl, rfl, ⟨[], by simp⟩⟩
  | cons op ops ih =>
    obtain ⟨g1, h1, hi1, hobs1, a1, a2, a3, a4, ⟨t1, ht1⟩⟩ := stepOp_spec g0 op hInv
    obtain ⟨g2, h2, hi2, hobs2, b1, b2, b3, b4, ⟨t2, ht2⟩⟩ := ih g1 hi1
    refine ⟨g2, ?_, hi2, ?_, b1.trans a1, b2.trans a2, b3.trans a3, b4.trans a4,
      ⟨t1 ++ t2, by rw [ht2, ht1, List.append_assoc]⟩⟩
    · simp [runOps, h1, h2]
    · rw [hobs2, hobs1, refOps, List.append_assoc]

theorem command_textured_success (g gB : WgpuGraphics) (h : g.command_textured = some gB) :
    ∃ tex, g.texture = some tex ∧
      gB.colored_data = g.colored_data ∧ gB.textured_data = [] ∧
      gB.draw_state = g.draw_state ∧ gB.texture = g.texture ∧
      gB.cmds = g.cmds ++ [Cmd.textured (g.texturedCallOf tex)] := by
  cases htex : g.texture with
  | none =>
    rw [command_textured_none g htex] at h
    exact absurd h (by simp)
  | some tex =>
    obtain ⟨gC, hgC, f1, f2, f3, f4, _, _, _, _, hcmds, _⟩ := command_textured_spec g tex htex
    rw [h] at hgC
    injection hgC with he
    subst he
    exact ⟨tex, rfl, f1, f2, f3, f4.trans htex, hcmds⟩

theorem nil_of_not_pos {α : Type} (l : List α) (h : ¬0 < l.length) : l = [] := by
  cases hl : l with
  | nil => rfl
  | cons a t =>
    rw [hl] at h
    simp at h

theorem coloredSubmit_rest (gA g1 : WgpuGraphics) (ds : DrawState)
    (chunks : List (List ColoredPipelineInput))
    (hs : Option.map (fun g2 => (g2.setDS ds).coloredFold chunks)
      (if 0 < gA.textured_data.length then gA.command_textured else some gA) = some g1) :
    g1.textured_data = [] ∧
    ∃ rest, g1.cmds = gA.cmds ++ rest ∧
      (gA.textured_data ≠ [] → ∃ tex post, gA.texture = some tex ∧
        rest = Cmd.textured (gA.texturedCallOf tex) :: post ∧ ∀ c ∈ post, c.isColoredCmd) ∧
      (gA.textured_data = [] → ∀ c ∈ rest, c.isColoredCmd) := by
  split at hs
  · rename_i hT
    cases hmid : gA.command_textured with
    | none =>
      rw [hmid] at hs
      exact absurd hs (by simp)
    | some gB =>
      rw [hmid] at hs
      have hs2 : (gB.setDS ds).coloredFold chunks = g1 := Option.some.inj hs
      obtain ⟨tex, htex, b1, b2, b3, b4, bcmds⟩ := command_textured_success gA gB hmid
      obtain ⟨fT, _, _, _, _, _, _⟩ := coloredFold_fields chunks (gB.setDS ds)
      obtain ⟨extra, hextra, hall⟩ := coloredFold_cmds chunks (gB.setDS ds)
      subst hs2
      refine ⟨by simpa [b2] using fT, Cmd.textured (gA.texturedCallOf tex) :: extra, ?_, ?_, ?_⟩
      · rw [hextra]
        simp [bcmds]
      · intro _
        exact ⟨tex, extra, htex, rfl, hall⟩
      · intro h0
        rw [h0] at hT
        simp at hT
  · rename_i hT
    have hT0 : gA.textured_data = [] := nil_of_not_pos _ hT
    have hs2 : (gA.setDS ds).coloredFold chunks = g1 := Option.some.inj hs
    obtain ⟨fT, _, _, _, _, _, _⟩ := coloredFold_fields chunks (gA.setDS ds)
    obtain ⟨extra, hextra, hall⟩ := coloredFold_cmds chunks (gA.setDS ds)
    subst hs2
    refine ⟨by simpa [hT0] using fT, extra, by simpa using hextra, ?_, fun _ => hall⟩
    intro hne
    exact absurd hT0 hne

theorem coloredSubmit_cmds_shape (g0 g1 : WgpuGraphics) (ds : DrawState)
    (chunks : List (List ColoredPipelineInput))
    (hs : g0.coloredSubmit ds chunks = some g1) :
    g1.textured_data = [] ∧
    (g0.textured_data ≠ [] → ∃ pre t post,
      g1.cmds = g0.cmds ++ pre ++ Cmd.textured t :: post ∧
      t.verts = g0.textured_data ∧ t.state = g0.draw_state ∧
      (∀ c ∈ pre, c.isColoredCmd) ∧ (∀ c ∈ post, c.isColoredCmd)) := by
  simp only [WgpuGraphics.coloredSubmit] at hs
  set gA := (if 0 < g0.colored_data.length then
      (if SOFT_BUFFER_LIMIT ≤ g0.colored_data.length + BUFFER_SIZE ∨ ds ≠ g0.draw_state
       then g0.command_colored else g0) else g0) with hgA
  obtain ⟨pre, hpreC, hpreAll, hTD, hDS⟩ :
      ∃ pre, gA.cmds = g0.cmds ++ pre ∧ (∀ c ∈ pre, c.isColoredCmd) ∧
        gA.textured_data = g0.textured_data ∧ gA.draw_state = g0.draw_state := by
    rw [hgA]
    split
    · split
      · exact ⟨[Cmd.colored g0.coloredCallOf], by simp, by simp [Cmd.isColoredCmd],
          by simp, by simp⟩
      · exact ⟨[], by simp, by simp, rfl, rfl⟩
    · exact ⟨[], by simp, by simp, rfl, rfl⟩
  obtain ⟨hT1, rest, hrest, himp1, _⟩ := coloredSubmit_rest gA g1 ds chunks hs
  refine ⟨hT1, ?_⟩
  intro hne
  obtain ⟨tex, post, htex, hrconj, hpost⟩ := himp1 (by rw [hTD]; exact hne)
  refine ⟨pre, gA.texturedCallOf tex, post, ?_, ?_, ?_, hpreAll, hpost⟩
  · simp [hrest, hrconj, hpreC]
  · rw [texturedCallOf_verts, hTD]
  · rw [texturedCallOf_state, hDS]

theorem texturedSubmit_rest (gA g1 : WgpuGraphics) (ds : DrawState) (texture : Texture)
    (chunks : List (List TexturedPipelineInput))
    (hs : ((if 0 < gA.textured_data.length then
        (if SOFT_BUFFER_LIMIT ≤ gA.textured_data.length + BUFFER_SIZE ∨ ds ≠ gA.draw_state
         then gA.command_textured
         else match gA.texture with
           | some prev_texture =>
             if texture ≠ prev_texture then gA.command_textured else some gA
           | Option.none => some gA)
      else some gA).bind fun g2 => (g2.setTexDS texture ds).texturedFold chunks) = some g1) :
    g1.colored_data = gA.colored_data ∧
    ∃ rest, g1.cmds = gA.cmds ++ rest ∧ (∀ c ∈ rest, c.isTexturedCmd) ∧
      (gA.textured_data ≠ [] →
        (ds ≠ gA.draw_state ∨ (∃ prev, gA.texture = some prev ∧ texture ≠ prev)) →
        ∃ tex post, gA.texture = some tex ∧
          rest = Cmd.textured (gA.texturedCallOf tex) :: post) := by
  have flushCase : ∀ gB, gA.command_textured = some gB →
      ((some gB).bind fun g2 => (g2.setTexDS texture ds).texturedFold chunks) = some g1 →
      g1.colored_data = gA.colored_data ∧
      ∃ rest, g1.cmds = gA.cmds ++ rest ∧ (∀ c ∈ rest, c.isTexturedCmd) ∧
        ∃ tex post, gA.texture = some tex ∧
          rest = Cmd.textured (gA.texturedCallOf tex) :: post := by
    intro gB hmid hs2
    obtain ⟨tex, htex, b1, b2, b3, b4, bcmds⟩ := command_textured_success gA gB hmid
    obtain ⟨gF, hgF, e1, e2, e3, e4, e5, e6, e7, ⟨extra, hextra, hall⟩, _, _⟩ :=
      texturedFold_spec chunks (gB.setTexDS texture ds) texture (by simp)
    have hg1 : gF = g1 := by
      have hs3 : (gB.setTexDS texture ds).texturedFold chunks = some g1 := hs2
      rw [hgF] at hs3
      exact Option.some.inj hs3
    subst hg1
    refine ⟨by simpa [b1] using e1, Cmd.textured (gA.texturedCallOf tex) :: extra, ?_, ?_,
      ⟨tex, extra, htex, rfl⟩⟩
    · simp only [hextra, setTexDS_cmds, bcmds]
      simp
    · intro c hc
      rcases List.mem_cons.mp hc with hc | hc
      · subst hc
        exact trivial
      · exact hall c hc
  have stayCase :
      ((some gA).bind fun g2 => (g2.setTexDS texture ds).texturedFold chunks) = some g1 →
      g1.colored_data = gA.colored_data ∧
      ∃ rest, g1.cmds = gA.cmds ++ rest ∧ (∀ c ∈ rest, c.isTexturedCmd) := by
    intro hs2
    obtain ⟨gF, hgF, e1, e2, e3, e4, e5, e6, e7, ⟨extra, hextra, hall⟩, _, _⟩ :=
      texturedFold_spec chunks (gA.setTexDS texture ds) texture (by simp)
    have hg1 : gF = g1 := by
      have hs3 : (gA.setTexDS texture ds).texturedFold chunks = some g1 := hs2
      rw [hgF] at hs3
      exact Option.some.inj hs3
    subst hg1
    exact ⟨by simpa using e1, extra, by simpa using hextra, hall⟩
  split at hs
  · rename_i hT
    split at hs
    · rename_i hF
      cases hmid : gA.command_textured with
      | none =>
        rw [hmid] at hs
        exact absurd hs (by simp)
      | some gB =>
        rw [hmid] at hs
        obtain ⟨h1, rest, hrest, hall, htr⟩ := flushCase gB hmid hs
        exact ⟨h1, rest, hrest, hall, fun _ _ => htr⟩
    · rename_i hF
      push_neg at hF
      split at hs
      · rename_i prev hprev
        split at hs
        · rename_i hTx
          cases hmid : gA.command_textured with
          | none =>
            rw [hmid] at hs
            exact absurd hs (by simp)
          | some gB =>
            rw [hmid] at hs
            obtain ⟨h1, rest, hrest, hall, htr⟩ := flushCase gB hmid hs
            exact ⟨h1, rest, hrest, hall, fun _ _ => htr⟩
        · rename_i hTx
          push_neg at hTx
          obtain ⟨h1, rest, hrest, hall⟩ := stayCase hs
          refine ⟨h1, rest, hrest, hall, ?_⟩
          intro _ htrig
          rcases htrig with hd | ⟨prev2, hprev2, hne2⟩
          · exact absurd hF.2 hd
          · rw [hprev] at hprev2
            injection hprev2 with he
            subst he
            exact absurd hTx hne2
      · rename_i hprev
        obtain ⟨h1, rest, hrest, hall⟩ := stayCase hs
        refine ⟨h1, rest, hrest, hall, ?_⟩
        intro _ htrig
        rcases htrig with hd | ⟨prev2, hprev2, _⟩
        · exact absurd hF.2 hd
        · rw [hprev] at hprev2
          exact absurd hprev2 (by simp)
  · rename_i hT
    obtain ⟨h1, rest, hrest, hall⟩ := stayCase hs
    refine ⟨h1, rest, hrest, hall, ?_⟩
    intro hne _
    exact absurd (nil_of_not_pos _ hT) hne

theorem texturedSubmit_cmds_shape (g0 g1 : WgpuGraphics) (ds : DrawState) (texture : Texture)
    (chunks : List (List TexturedPipelineInput))
    (hs : g0.texturedSubmit ds texture chunks = some g1) :
    g1.colored_data = [] ∧
    (g0.colored_data ≠ [] → ∃ post,
      g1.cmds = g0.cmds ++ Cmd.colored g0.coloredCallOf :: post ∧
      ∀ c ∈ post, c.isTexturedCmd) := by
  simp only [WgpuGraphics.texturedSubmit] at hs
  by_cases h1 : 0 < g0.colored_data.length
  · rw [if_pos h1] at hs
    obtain ⟨hcol, rest, hrest, hall, _⟩ :=
      texturedSubmit_rest g0.command_colored g1 ds texture chunks hs
    refine ⟨by simpa using hcol, ?_⟩
    intro _
    exact ⟨rest, by simpa using hrest, hall⟩
  · rw [if_neg h1] at hs
    obtain ⟨hcol, _, _, _, _⟩ := texturedSubmit_rest g0 g1 ds texture chunks hs
    refine ⟨by rw [hcol, nil_of_not_pos _ h1], ?_⟩
    intro hne
    exact absurd (nil_of_not_pos _ h1) hne

theorem coloredSubmit_state_flush (g0 g1 : WgpuGraphics) (ds : DrawState)
    (chunks : List (List ColoredPipelineInput))
    (hs : g0.coloredSubmit ds chunks = some g1)
    (hne : g0.colored_data ≠ []) (hd : ds ≠ g0.draw_state) :
    ∃ rest, g1.cmds = g0.cmds ++ Cmd.colored g0.coloredCallOf :: rest := by
  simp only [WgpuGraphics.coloredSubmit] at hs
  rw [if_pos (List.length_pos.mpr hne), if_pos (Or.inr hd)] at hs
  obtain ⟨_, rest, hrest, _, _⟩ := coloredSubmit_rest g0.command_colored g1 ds chunks hs
  exact ⟨rest, by simpa using hrest⟩

theorem texturedSubmit_state_flush (g0 g1 : WgpuGraphics) (ds : DrawState) (texture : Texture)
    (chunks : List (List TexturedPipelineInput))
    (hs : g0.texturedSubmit ds texture chunks = some g1)
    (hne : g0.textured_data ≠ [])
    (htrig : ds ≠ g0.draw_state ∨ (∃ prev, g0.texture = some prev ∧ texture ≠ prev)) :
    ∃ pre t post, g1.cmds = g0.cmds ++ pre ++ Cmd.textured t :: post ∧
      t.verts = g0.textured_data ∧ t.state = g0.draw_state ∧
      g0.texture = some t.texture ∧
      (∀ c ∈ pre, c.isColoredCmd) := by
  simp only [WgpuGraphics.texturedSubmit] at hs
  by_cases h1 : 0 < g0.colored_data.length
  · rw [if_pos h1] at hs
    obtain ⟨_, rest, hrest, _, htr⟩ :=
      texturedSubmit_rest g0.command_colored g1 ds texture chunks hs
    obtain ⟨tex, post, htexA, hrconj⟩ := htr (by simpa using hne)
      (by
        rcases htrig with hd | ⟨prev, hprev, hne2⟩
        · exact Or.inl (by simpa using hd)
        · exact Or.inr ⟨prev, by simpa using hprev, hne2⟩)
    refine ⟨[Cmd.colored g0.coloredCallOf], g0.command_colored.texturedCallOf tex, post, ?_,
      by rw [texturedCallOf_verts, command_colored_textured_data],
      by rw [texturedCallOf_state, command_colored_draw_state],
      by rw [texturedCallOf_texture]; exact (command_colored_texture g0) ▸ htexA, ?_⟩
    · rw [hrest, hrconj]
      simp
    · intro c hc
      simp at hc
      subst hc
      exact trivial
  · rw [if_neg h1] at hs
    obtain ⟨_, rest, hrest, _, htr⟩ := texturedSubmit_rest g0 g1 ds texture chunks hs
    obtain ⟨tex, post, htexA, hrconj⟩ := htr hne htrig
    refine ⟨[], g0.texturedCallOf tex, post, ?_, texturedCallOf_verts g0 tex,
      texturedCallOf_state g0 tex, by rw [texturedCallOf_texture]; exact htexA, by simp⟩
    rw [hrest, hrconj]
    simp

/-- The chunk sequences of one entry point all stay within the
`BACK_END_MAX_VERTEX_COUNT` chunk size (the piston graphics interface
contract for vertex callbacks). -/
def FrameOp.chunksBounded : FrameOp → Prop
  | FrameOp.clear_color _ => True
  | FrameOp.clear_stencil _ => True
  | FrameOp.tri_list _ _ chunks => ∀ ch ∈ chunks, ch.length ≤ BUFFER_SIZE
  | FrameOp.tri_list_c _ chunks => ∀ ch ∈ chunks, ch.1.length ≤ BUFFER_SIZE
  | FrameOp.tri_list_uv _ _ _ chunks => ∀ ch ∈ chunks, ch.1.length ≤ BUFFER_SIZE
  | FrameOp.tri_list_uv_c _ _ chunks => ∀ ch ∈ chunks, ch.1.length ≤ BUFFER_SIZE

/-- Capacity invariant: both pending buffers and every draw command so far
respect the soft capacity. -/
def CapInv (g : WgpuGraphics) : Prop :=
  g.colored_data.length ≤ SOFT_BUFFER_LIMIT ∧
  g.textured_data.length ≤ SOFT_BUFFER_LIMIT ∧
  ∀ c ∈ g.cmds, cmdBounded c

theorem command_colored_cap (g : WgpuGraphics) (h : CapInv g) : CapInv g.command_colored := by
  obtain ⟨h1, h2, h3⟩ := h
  refine ⟨by simp, by simpa using h2, ?_⟩
  intro c hc
  rw [command_colored_cmds] at hc
  rcases List.mem_append.mp hc with hc | hc
  · exact h3 c hc
  · simp at hc
    subst hc
    simpa [cmdBounded] using h1

theorem command_textured_cap (g gB : WgpuGraphics) (h : CapInv g)
    (hmid : g.command_textured = some gB) : CapInv gB := by
  obtain ⟨h1, h2, h3⟩ := h
  obtain ⟨tex, _, b1, b2, _, _, bcmds⟩ := command_textured_success g gB hmid
  refine ⟨by rw [b1]; exact h1, by simp [b2], ?_⟩
  intro c hc
  rw [bcmds] at hc
  rcases List.mem_append.mp hc with hc | hc
  · exact h3 c hc
  · simp at hc
    subst hc
    simpa [cmdBounded, texturedCallOf_verts] using h2

theorem coloredSubmit_cap (g0 g1 : WgpuGraphics) (ds : DrawState)
    (chunks : List (List ColoredPipelineInput))
    (hs : g0.coloredSubmit ds chunks = some g1)
    (hch : ∀ vs ∈ chunks, vs.length ≤ BUFFER_SIZE) (hcap : CapInv g0) : CapInv g1 := by
  simp only [WgpuGraphics.coloredSubmit] at hs
  set gA := (if 0 < g0.colored_data.length then
      (if SOFT_BUFFER_LIMIT ≤ g0.colored_data.length + BUFFER_SIZE ∨ ds ≠ g0.draw_state
       then g0.command_colored else g0) else g0) with hgA
  have hcapA : CapInv gA := by
    rw [hgA]
    split
    · split
      · exact command_colored_cap g0 hcap
      · exact hcap
    · exact hcap
  have foldCase : ∀ gB, CapInv gB →
      (gB.setDS ds).coloredFold chunks = g1 → CapInv g1 := by
    intro gB hcapB he
    obtain ⟨c1, c2, c3⟩ := hcapB
    obtain ⟨d1, d2⟩ := coloredFold_cap chunks (gB.setDS ds) hch (by simpa using c1)
    obtain ⟨fT, _, _, _, _, _, _⟩ := coloredFold_fields chunks (gB.setDS ds)
    subst he
    refine ⟨d1, ?_, ?_⟩
    · calc ((gB.setDS ds).coloredFold chunks).textured_data.length
          = gB.textured_data.length := by simpa using congrArg List.length fT
        _ ≤ SOFT_BUFFER_LIMIT := c2
    intro c hc
    rcases d2 c hc with hc2 | hc2
    · exact c3 c (by simpa using hc2)
    · exact hc2
  split at hs
  · cases hmid : gA.command_textured with
    | none =>
      rw [hmid] at hs
      exact absurd hs (by simp)
    | some gB =>
      rw [hmid] at hs
      exact foldCase gB (command_textured_cap gA gB hcapA hmid) (Option.some.inj hs)
  · exact foldCase gA hcapA (Option.some.inj hs)

theorem texturedSubmit_cap (g0 g1 : WgpuGraphics) (ds : DrawState) (texture : Texture)
    (chunks : List (List TexturedPipelineInput))
    (hs : g0.texturedSubmit ds texture chunks = some g1)
    (hch : ∀ vs ∈ chunks, vs.length ≤ BUFFER_SIZE) (hcap : CapInv g0) : CapInv g1 := by
  simp only [WgpuGraphics.texturedSubmit] at hs
  set gA := (if 0 < g0.colored_data.length then g0.command_colored else g0) with hgA
  have hcapA : CapInv gA := by
    rw [hgA]
    split
    · exact command_colored_cap g0 hcap
    · exact hcap
  have foldCase : ∀ gB, CapInv gB →
      ((some gB).bind fun g2 => (g2.setTexDS texture ds).texturedFold chunks) = some g1 →
      CapInv g1 := by
    intro gB hcapB he
    obtain ⟨c1, c2, c3⟩ := hcapB
    obtain ⟨gF, hgF, e1, _, _, _, _, _, _, ⟨extra, hextra, _⟩, _, ecap⟩ :=
      texturedFold_spec chunks (gB.setTexDS texture ds) texture (by simp)
    obtain ⟨d1, d2⟩ := ecap hch (by simpa using c2)
    have hg1 : gF = g1 := by
      have he2 : (gB.setTexDS texture ds).texturedFold chunks = some g1 := he
      rw [hgF] at he2
      exact Option.some.inj he2
    subst hg1
    refine ⟨?_, d1, ?_⟩
    · calc gF.colored_data.length
          = gB.colored_data.length := by simpa using congrArg List.length e1
        _ ≤ SOFT_BUFFER_LIMIT := c1
    intro c hc
    rcases d2 c hc with hc2 | hc2
    · exact c3 c (by simpa using hc2)
    · exact hc2
  split at hs
  · split at hs
    · cases hmid : gA.command_textured with
      | none =>
        rw [hmid] at hs
        exact absurd hs (by simp)
      | some gB =>
        rw [hmid] at hs
        exact foldCase gB (command_textured_cap gA gB hcapA hmid) hs
    · split at hs
      · split at hs
        · cases hmid : gA.command_textured with
          | none =>
            rw [hmid] at hs
            exact absurd hs (by simp)
          | some gB =>
            rw [hmid] at hs
            exact foldCase gB (command_textured_cap gA gB hcapA hmid) hs
        · exact foldCase gA hcapA hs
      · exact foldCase gA hcapA hs
  · exact foldCase gA hcapA hs

theorem coloredVerts_length (color : Vec4) (ps : List Vec2) :
    (coloredVerts color ps).length = ps.length := by
  simp [coloredVerts]

theorem coloredVertsC_length_le (pc : List Vec2 × List Vec4) :
    (coloredVertsC pc).length ≤ pc.1.length := by
  simp [coloredVertsC]

theorem texturedVerts_length_le (color : Vec4) (xu : List Vec2 × List Vec2) :
    (texturedVerts color xu).length ≤ xu.1.length := by
  simp [texturedVerts]

theorem texturedVertsC_length_le (t : List Vec2 × List Vec2 × List Vec4) :
    (texturedVertsC t).length ≤ t.1.length := by
  simp [texturedVertsC]

theorem flushBoth_cap (g0 g1 : WgpuGraphics) (h : g0.flushBoth = some g1)
    (hcap : CapInv g0) : CapInv g1 := by
  simp only [WgpuGraphics.flushBoth] at h
  set gA := (if 0 < g0.colored_data.length then g0.command_colored else g0) with hgA
  have hcapA : CapInv gA := by
    rw [hgA]
    split
    · exact command_colored_cap g0 hcap
    · exact hcap
  split at h
  · exact command_textured_cap gA g1 hcapA h
  · rw [Option.some.inj h] at hcapA
    exact hcapA

theorem pushCmd_cap (g : WgpuGraphics) (colorLoad : LoadOp WgpuColor)
    (stencilLoad : LoadOp Nat) (hcap : CapInv g) :
    CapInv (g.pushCmd (Cmd.clearPass colorLoad stencilLoad)) := by
  obtain ⟨h1, h2, h3⟩ := hcap
  refine ⟨by simpa using h1, by simpa using h2, ?_⟩
  intro c hc
  rw [pushCmd_cmds] at hc
  rcases List.mem_append.mp hc with hc | hc
  · exact h3 c hc
  · simp at hc
    subst hc
    exact trivial

theorem stepOp_cap (g : WgpuGraphics) (op : FrameOp) (g1 : WgpuGraphics)
    (hstep : stepOp g op = some g1) (hb : op.chunksBounded) (hcap : CapInv g) :
    CapInv g1 := by
  cases op with
  | clear_color color =>
    simp only [stepOp, WgpuGraphics.clear_color] at hstep
    cases hmid : g.flushBoth with
    | none =>
      rw [hmid] at hstep
      exact absurd hstep (by simp)
    | some g2 =>
      rw [hmid] at hstep
      have h2 : g2.pushCmd (Cmd.clearPass (LoadOp.clear (to_wgpu_color color)) LoadOp.load) = g1 :=
        Option.some.inj hstep
      rw [← h2]
      exact pushCmd_cap g2 _ _ (flushBoth_cap g g2 hmid hcap)
  | clear_stencil value =>
    simp only [stepOp, WgpuGraphics.clear_stencil] at hstep
    cases hmid : g.flushBoth with
    | none =>
      rw [hmid] at hstep
      exact absurd hstep (by simp)
    | some g2 =>
      rw [hmid] at hstep
      have h2 : g2.pushCmd (Cmd.clearPass LoadOp.load (LoadOp.clear value)) = g1 :=
        Option.some.inj hstep
      rw [← h2]
      exact pushCmd_cap g2 _ _ (flushBoth_cap g g2 hmid hcap)
  | tri_list ds color chunks =>
    refine coloredSubmit_cap g g1 ds (chunks.map (coloredVerts color)) hstep ?_ hcap
    intro vs hvs
    obtain ⟨ch, hch, he⟩ := List.mem_map.mp hvs
    rw [← he, coloredVerts_length]
    exact hb ch hch
  | tri_list_c ds chunks =>
    refine coloredSubmit_cap g g1 ds (chunks.map coloredVertsC) hstep ?_ hcap
    intro vs hvs
    obtain ⟨ch, hch, he⟩ := List.mem_map.mp hvs
    rw [← he]
    exact le_trans (coloredVertsC_length_le ch) (hb ch hch)
  | tri_list_uv ds color texture chunks =>
    refine texturedSubmit_cap g g1 ds texture (chunks.map (texturedVerts color)) hstep ?_ hcap
    intro vs hvs
    obtain ⟨ch, hch, he⟩ := List.mem_map.mp hvs
    rw [← he]
    exact le_trans (texturedVerts_length_le color ch) (hb ch hch)
  | tri_list_uv_c ds texture chunks =>
    refine texturedSubmit_cap g g1 ds texture (chunks.map texturedVertsC) hstep ?_ hcap
    intro vs hvs
    obtain ⟨ch, hch, he⟩ := List.mem_map.mp hvs
    rw [← he]
    exact le_trans (texturedVertsC_length_le ch) (hb ch hch)

theorem runOps_cap (ops : List FrameOp) (g0 g1 : WgpuGraphics)
    (h : runOps g0 ops = some g1) (hb : ∀ op ∈ ops, op.chunksBounded)
    (hcap : CapInv g0) : CapInv g1 := by
  induction ops generalizing g0 with
  | nil =>
    rw [Option.some.inj h] at hcap
    exact hcap
  | cons op ops ih =>
    simp only [runOps] at h
    cases hst : stepOp g0 op with
    | none =>
      rw [hst] at h
      exact absurd h (by simp)
    | some gm =>
      rw [hst] at h
      exact ih gm (by simpa using h) (fun o ho => hb o (by simp [ho]))
        (stepOp_cap g0 op gm hst (hb op (by simp)) hcap)

/-- The five stencil classes: the classification of `Option<Stencil>` that the
pipeline table is keyed on (the reference value is not part of the key). -/
inductive StencilClass where
  | noneC
  | clipC
  | insideC
  | outsideC
  | incrementC
deriving DecidableEq, Repr

/-- The stencil class of a draw state's stencil mode. -/
def stencilClass : Option Stencil → StencilClass
  | Option.none => StencilClass.noneC
  | some (Stencil.clip _) => StencilClass.clipC
  | some (Stencil.inside _) => StencilClass.insideC
  | some (Stencil.outside _) => StencilClass.outsideC
  | some Stencil.increment => StencilClass.incrementC

/-- The blend-mode group stored for a stencil class. -/
def PsoStencil.classGet {α : Type} (p : PsoStencil α) : StencilClass → PsoBlend α
  | StencilClass.noneC => p.none
  | StencilClass.clipC => p.clip
  | StencilClass.insideC => p.inside
  | StencilClass.outsideC => p.outside
  | StencilClass.incrementC => p.increment

theorem stencil_blend_fst {α : Type} (p : PsoStencil α) (s : Option Stencil) (b : Option Blend) :
    (p.stencil_blend s b).1 = (p.classGet (stencilClass s)).blend b := by
  cases s with
  | none => rfl
  | some sv => cases sv <;> rfl

theorem PsoBlend.blend_mem {α : Type} (pb : PsoBlend α) (b : Option Blend) :
    pb.blend b ∈ pb.toList := by
  cases b with
  | none => simp [PsoBlend.blend, PsoBlend.toList]
  | some bv => cases bv <;> simp [PsoBlend.blend, PsoBlend.toList]

theorem PsoStencil.classGet_sub {α : Type} (p : PsoStencil α) (cl : StencilClass) (x : α)
    (hx : x ∈ (p.classGet cl).toList) : x ∈ p.toList := by
  cases cl <;> simp only [PsoStencil.classGet] at hx <;>
    simp [PsoStencil.toList, List.mem_append, hx]

/-- The stencil mode carries a reference value (`Clip`, `Inside`, `Outside`). -/
def stencilCarriesRef : Option Stencil → Prop
  | some (Stencil.clip _) => True
  | some (Stencil.inside _) => True
  | some (Stencil.outside _) => True
  | some Stencil.increment => False
  | Option.none => False

/-- Two draw states select the same pipeline iff blend and stencil class
match; they are pipeline-incompatible when either differs. -/
def pipelineIncompatible (a b : DrawState) : Prop :=
  a.blend ≠ b.blend ∨ stencilClass a.stencil ≠ stencilClass b.stencil

theorem pipelineIncompatible_ne (a b : DrawState) (h : pipelineIncompatible a b) : a ≠ b := by
  intro he
  subst he
  rcases h with h | h <;> exact h rfl

/-- Identities of the device buffers a command reads from. -/
def Cmd.bufferIds : Cmd → List Nat
  | Cmd.colored c => [c.bufferId]
  | Cmd.textured c => [c.bufferId]
  | Cmd.clearPass _ _ => []

theorem flushBoth_cmds (g0 g1 : WgpuGraphics) (h : g0.flushBoth = some g1) :
    ∃ tail, g1.cmds = g0.cmds ++ tail := by
  simp only [WgpuGraphics.flushBoth] at h
  set gA := (if 0 < g0.colored_data.length then g0.command_colored else g0) with hgA
  obtain ⟨pre, hpre⟩ : ∃ pre, gA.cmds = g0.cmds ++ pre := by
    rw [hgA]
    split
    · exact ⟨[Cmd.colored g0.coloredCallOf], by simp⟩
    · exact ⟨[], by simp⟩
  split at h
  · obtain ⟨tex, _, _, _, _, _, bcmds⟩ := command_textured_success gA g1 h
    exact ⟨pre ++ [Cmd.textured (gA.texturedCallOf tex)], by rw [bcmds, hpre]; simp⟩
  · exact ⟨pre, by rw [← Option.some.inj h, hpre]⟩

theorem stepOp_cmds_extend (g : WgpuGraphics) (op : FrameOp) (g1 : WgpuGraphics)
    (hstep : stepOp g op = some g1) : ∃ tail, g1.cmds = g.cmds ++ tail := by
  cases op with
  | clear_color color =>
    simp only [stepOp, WgpuGraphics.clear_color] at hstep
    cases hmid : g.flushBoth with
    | none =>
      rw [hmid] at hstep
      exact absurd hstep (by simp)
    | some g2 =>
      rw [hmid] at hstep
      obtain ⟨tail, htail⟩ := flushBoth_cmds g g2 hmid
      rw [← Option.some.inj hstep]
      exact ⟨tail ++ [Cmd.clearPass (LoadOp.clear (to_wgpu_color color)) LoadOp.load],
        by simp [htail]⟩
  | clear_stencil value =>
    simp only [stepOp, WgpuGraphics.clear_stencil] at hstep
    cases hmid : g.flushBoth with
    | none =>
      rw [hmid] at hstep
      exact absurd hstep (by simp)
    | some g2 =>
      rw [hmid] at hstep
      obtain ⟨tail, htail⟩ := flushBoth_cmds g g2 hmid
      rw [← Option.some.inj hstep]
      exact ⟨tail ++ [Cmd.clearPass LoadOp.load (LoadOp.clear value)], by simp [htail]⟩
  | tri_list ds color chunks =>
    have hs : g.coloredSubmit ds (chunks.map (coloredVerts color)) = some g1 := hstep
    simp only [WgpuGraphics.coloredSubmit] at hs
    set gA := (if 0 < g.colored_data.length then
        (if SOFT_BUFFER_LIMIT ≤ g.colored_data.length + BUFFER_SIZE ∨ ds ≠ g.draw_state
         then g.command_colored else g) else g) with hgA
    obtain ⟨pre, hpre⟩ : ∃ pre, gA.cmds = g.cmds ++ pre := by
      rw [hgA]
      split
      · split
        · exact ⟨[Cmd.colored g.coloredCallOf], by simp⟩
        · exact ⟨[], by simp⟩
      · exact ⟨[], by simp⟩
    obtain ⟨_, rest, hrest, _, _⟩ := coloredSubmit_rest gA g1 ds _ hs
    exact ⟨pre ++ rest, by rw [hrest, hpre]; simp⟩
  | tri_list_c ds chunks =>
    have hs : g.coloredSubmit ds (chunks.map coloredVertsC) = some g1 := hstep
    simp only [WgpuGraphics.coloredSubmit] at hs
    set gA := (if 0 < g.colored_data.length then
        (if SOFT_BUFFER_LIMIT ≤ g.colored_data.length + BUFFER_SIZE ∨ ds ≠ g.draw_state
         then g.command_colored else g) else g) with hgA
    obtain ⟨pre, hpre⟩ : ∃ pre, gA.cmds = g.cmds ++ pre := by
      rw [hgA]
      split
      · split
        · exact ⟨[Cmd.colored g.coloredCallOf], by simp⟩
        · exact ⟨[], by simp⟩
      · exact ⟨[], by simp⟩
    obtain ⟨_, rest, hrest, _, _⟩ := coloredSubmit_rest gA g1 ds _ hs
    exact ⟨pre ++ rest, by rw [hrest, hpre]; simp⟩
  | tri_list_uv ds color texture chunks =>
    have hs : g.texturedSubmit ds texture (chunks.map (texturedVerts color)) = some g1 := hstep
    simp only [WgpuGraphics.texturedSubmit] at hs
    by_cases h1 : 0 < g.colored_data.length
    · rw [if_pos h1] at hs
      obtain ⟨_, rest, hrest, _, _⟩ := texturedSubmit_rest g.command_colored g1 ds texture _ hs
      exact ⟨Cmd.colored g.coloredCallOf :: rest, by rw [hrest]; simp⟩
    · rw [if_neg h1] at hs
      obtain ⟨_, rest, hrest, _, _⟩ := texturedSubmit_rest g g1 ds texture _ hs
      exact ⟨rest, hrest⟩
  | tri_list_uv_c ds texture chunks =>
    have hs : g.texturedSubmit ds texture (chunks.map texturedVertsC) = some g1 := hstep
    simp only [WgpuGraphics.texturedSubmit] at hs
    by_cases h1 : 0 < g.colored_data.length
    · rw [if_pos h1] at hs
      obtain ⟨_, rest, hrest, _, _⟩ := texturedSubmit_rest g.command_colored g1 ds texture _ hs
      exact ⟨Cmd.colored g.coloredCallOf :: rest, by rw [hrest]; simp⟩
    · rw [if_neg h1] at hs
      obtain ⟨_, rest, hrest, _, _⟩ := texturedSubmit_rest g g1 ds texture _ hs
      exact ⟨rest, hrest⟩

theorem initialFrame_colored_data (width height : Nat) :
    (initialFrame width height).colored_data = [] := rfl

theorem initialFrame_textured_data (width height : Nat) :
    (initialFrame width height).textured_data = [] := rfl

theorem initialFrame_cmds (width height : Nat) :
    (initialFrame width height).cmds = [] := rfl

theorem initialFrame_totalObs (width height : Nat) :
    totalObs (initialFrame width height) = [] := by
  simp [totalObs, pendingObs, obsOfCmds, initialFrame_colored_data, initialFrame_textured_data,
    initialFrame_cmds]

theorem initialFrame_inv (width height : Nat) : FrameInv (initialFrame width height) :=
  ⟨Or.inl (initialFrame_colored_data width height), Or.inl (initialFrame_textured_data width height)⟩

/-- C1: for every sequence of entry-point calls within one frame (submits of
both vertex kinds and clears, in any interleaving), the command sequence
emitted by finishing the frame with `draw` is observationally equivalent to
the naive reference that executes one draw per submit call immediately:
flattening the flushed batches yields every submitted vertex in submission
order, each drawn under exactly the draw state (and texture) of its own
submit call, with clears in their submitted positions. -/
theorem batched_draw_refines_immediate (width height : Nat) (ops : List FrameOp) :
    ∃ g gfin, runOps (initialFrame width height) ops = some g ∧
      g.draw = some gfin ∧ obsOfCmds gfin.cmds = refOps ops := by
  obtain ⟨g1, h1, hi1, hobs1, _, _, _, _, _⟩ := runOps_spec ops _ (initialFrame_inv width height)
  obtain ⟨g2, h2, f1, f2, _, _, fobs, _, _, _, _, _⟩ := flushBoth_spec g1 hi1
  refine ⟨g1, g2, h1, h2, ?_⟩
  have h3 : totalObs g2 = refOps ops := by
    rw [fobs, hobs1, initialFrame_totalObs]
    simp
  have h4 : pendingObs g2 = [] := pendingObs_nil g2 f1 f2
  simpa [totalObs, h4] using h3

/-- C10: starting from a fresh frame over a freshly built engine, every
sequence of entry-point calls runs without the texture unwrap in
`command_textured` ever panicking (the run and the final `draw` both
succeed), and in every state so reached a non-empty textured buffer implies
a recorded current texture. -/
theorem textured_unwrap_never_panics (width height : Nat) (ops : List FrameOp) :
    ∃ g, runOps (initialFrame width height) ops = some g ∧
      (g.textured_data ≠ [] → g.texture.isSome) ∧
      g.draw.isSome := by
  obtain ⟨g1, h1, hi1, _, _, _, _, _, _⟩ := runOps_spec ops _ (initialFrame_inv width height)
  obtain ⟨g2, h2, _⟩ := flushBoth_spec g1 hi1
  refine ⟨g1, h1, ?_, ?_⟩
  · intro hne
    rcases hi1.2 with h | ⟨tex, htex⟩
    · exact absurd h hne
    · simp [htex]
  · rw [WgpuGraphics.draw, h2]
    rfl

/-- C4: when every callback-yielded chunk stays within the
`BACK_END_MAX_VERTEX_COUNT` chunk size, every batch flushed during the frame
(and at `draw`) contains at most `SOFT_BUFFER_LIMIT = 100 * BUFFER_SIZE`
vertices: a chunk whose append could exceed the soft capacity triggers a
flush first. -/
theorem flushed_batches_respect_soft_limit (width height : Nat) (ops : List FrameOp)
    (g gfin : WgpuGraphics)
    (hb : ∀ op ∈ ops, op.chunksBounded)
    (hrun : runOps (initialFrame width height) ops = some g)
    (hdraw : g.draw = some gfin) :
    ∀ c ∈ gfin.cmds, cmdBounded c := by
  have hcap0 : CapInv (initialFrame width height) := by
    refine ⟨?_, ?_, ?_⟩
    · rw [initialFrame_colored_data]
      exact Nat.zero_le _
    · rw [initialFrame_textured_data]
      exact Nat.zero_le _
    · rw [initialFrame_cmds]
      intro c hc
      simp at hc
  have hcap1 := runOps_cap ops _ g hrun hb hcap0
  exact (flushBoth_cap g gfin hdraw hcap1).2.2

/-- C6: `clear_color` flushes both pending batches and then records a pass
whose color load operation clears to the given color while the stencil load
operation preserves contents; `clear_stencil` is symmetric; the previously
queued draws are flushed (not discarded) and precede the clear pass in the
command sequence, and any command a later entry point emits is appended
after it. -/
theorem clear_flushes_pending_and_orders (g g1 : WgpuGraphics) (hInv : FrameInv g) :
    (∀ color, g.clear_color color = some g1 →
      g1.colored_data = [] ∧ g1.textured_data = [] ∧
      totalObs g1 = totalObs g ++ [Obs.clearColor (to_wgpu_color color)] ∧
      ∃ flushes, g1.cmds = g.cmds ++ flushes ++
          [Cmd.clearPass (LoadOp.clear (to_wgpu_color color)) LoadOp.load] ∧
        ∀ c ∈ flushes, c.isColoredCmd ∨ c.isTexturedCmd) ∧
    (∀ value, g.clear_stencil value = some g1 →
      g1.colored_data = [] ∧ g1.textured_data = [] ∧
      totalObs g1 = totalObs g ++ [Obs.clearStencil value] ∧
      ∃ flushes, g1.cmds = g.cmds ++ flushes ++
          [Cmd.clearPass LoadOp.load (LoadOp.clear value)] ∧
        ∀ c ∈ flushes, c.isColoredCmd ∨ c.isTexturedCmd) ∧
    (∀ op g2, stepOp g1 op = some g2 → ∃ tail, g2.cmds = g1.cmds ++ tail) := by
  refine ⟨?_, ?_, ?_⟩
  · intro color hc
    obtain ⟨g1b, hg1b, e1, e2, _, eobs, _, _, _, _, ⟨fl, hfl, hflp⟩⟩ :=
      clear_color_spec g color hInv
    rw [hc] at hg1b
    obtain rfl : g1 = g1b := Option.some.inj hg1b
    exact ⟨e1, e2, eobs, ⟨fl, hfl, hflp⟩⟩
  · intro value hc
    obtain ⟨g1b, hg1b, e1, e2, _, eobs, _, _, _, _, ⟨fl, hfl, hflp⟩⟩ :=
      clear_stencil_spec g value hInv
    rw [hc] at hg1b
    obtain rfl : g1 = g1b := Option.some.inj hg1b
    exact ⟨e1, e2, eobs, ⟨fl, hfl, hflp⟩⟩
  · intro op g2 hstep
    exact stepOp_cmds_extend g1 op g2 hstep

/-- C2: every submit entry point first flushes the other kind's pending
batch when it is non-empty — the flushed batch appears in the command
sequence, carrying exactly the previously pending vertices under the
previous draw state, before any command produced by appending the new
call's vertices — and on return the other kind's pending buffer is empty. -/
theorem submit_flushes_other_kind_first (g g1 : WgpuGraphics) :
    (∀ ds color chunks, g.tri_list ds color chunks = some g1 →
      g1.textured_data = [] ∧
      (g.textured_data ≠ [] → ∃ pre t post,
        g1.cmds = g.cmds ++ pre ++ Cmd.textured t :: post ∧
        t.verts = g.textured_data ∧ t.state = g.draw_state ∧
        (∀ c ∈ pre, c.isColoredCmd) ∧ (∀ c ∈ post, c.isColoredCmd))) ∧
    (∀ ds chunks, g.tri_list_c ds chunks = some g1 →
      g1.textured_data = [] ∧
      (g.textured_data ≠ [] → ∃ pre t post,
        g1.cmds = g.cmds ++ pre ++ Cmd.textured t :: post ∧
        t.verts = g.textured_data ∧ t.state = g.draw_state ∧
        (∀ c ∈ pre, c.isColoredCmd) ∧ (∀ c ∈ post, c.isColoredCmd))) ∧
    (∀ ds color texture chunks, g.tri_list_uv ds color texture chunks = some g1 →
      g1.colored_data = [] ∧
      (g.colored_data ≠ [] → ∃ post,
        g1.cmds = g.cmds ++ Cmd.colored g.coloredCallOf :: post ∧
        ∀ c ∈ post, c.isTexturedCmd)) ∧
    (∀ ds texture chunks, g.tri_list_uv_c ds texture chunks = some g1 →
      g1.colored_data = [] ∧
      (g.colored_data ≠ [] → ∃ post,
        g1.cmds = g.cmds ++ Cmd.colored g.coloredCallOf :: post ∧
        ∀ c ∈ post, c.isTexturedCmd)) := by
  refine ⟨?_, ?_, ?_, ?_⟩
  · intro ds color chunks hs
    exact coloredSubmit_cmds_shape g g1 ds (chunks.map (coloredVerts color)) hs
  · intro ds chunks hs
    exact coloredSubmit_cmds_shape g g1 ds (chunks.map coloredVertsC) hs
  · intro ds color texture chunks hs
    exact texturedSubmit_cmds_shape g g1 ds texture (chunks.map (texturedVerts color)) hs
  · intro ds texture chunks hs
    exact texturedSubmit_cmds_shape g g1 ds texture (chunks.map texturedVertsC) hs

/-- C3: if the pending batch of the requested kind is non-empty and the
requested draw state is pipeline-incompatible with the pending one (blend
or stencil class differ), or — textured kind only — the texture identity
changed, then the pending batch is flushed, with its own vertices, draw
state and texture, before the new vertices are appended. -/
theorem incompatible_state_flushes_before_append (g g1 : WgpuGraphics) :
    (∀ ds color chunks, g.tri_list ds color chunks = some g1 →
      g.colored_data ≠ [] → pipelineIncompatible ds g.draw_state →
      ∃ rest, g1.cmds = g.cmds ++ Cmd.colored g.coloredCallOf :: rest) ∧
    (∀ ds chunks, g.tri_list_c ds chunks = some g1 →
      g.colored_data ≠ [] → pipelineIncompatible ds g.draw_state →
      ∃ rest, g1.cmds = g.cmds ++ Cmd.colored g.coloredCallOf :: rest) ∧
    (∀ ds color texture chunks, g.tri_list_uv ds color texture chunks = some g1 →
      g.textured_data ≠ [] →
      (pipelineIncompatible ds g.draw_state ∨
        ∃ prev, g.texture = some prev ∧ texture ≠ prev) →
      ∃ pre t post, g1.cmds = g.cmds ++ pre ++ Cmd.textured t :: post ∧
        t.verts = g.textured_data ∧ t.state = g.draw_state ∧
        g.texture = some t.texture ∧ ∀ c ∈ pre, c.isColoredCmd) ∧
    (∀ ds texture chunks, g.tri_list_uv_c ds texture chunks = some g1 →
      g.textured_data ≠ [] →
      (pipelineIncompatible ds g.draw_state ∨
        ∃ prev, g.texture = some prev ∧ texture ≠ prev) →
      ∃ pre t post, g1.cmds = g.cmds ++ pre ++ Cmd.textured t :: post ∧
        t.verts = g.textured_data ∧ t.state = g.draw_state ∧
        g.texture = some t.texture ∧ ∀ c ∈ pre, c.isColoredCmd) := by
  refine ⟨?_, ?_, ?_, ?_⟩
  · intro ds color chunks hs hne hinc
    exact coloredSubmit_state_flush g g1 ds _ hs hne (pipelineIncompatible_ne ds g.draw_state hinc)
  · intro ds chunks hs hne hinc
    exact coloredSubmit_state_flush g g1 ds _ hs hne (pipelineIncompatible_ne ds g.draw_state hinc)
  · intro ds color texture chunks hs hne htrig
    refine texturedSubmit_state_flush g g1 ds texture _ hs hne ?_
    rcases htrig with h | h
    · exact Or.inl (pipelineIncompatible_ne ds g.draw_state h)
    · exact Or.inr h
  · intro ds texture chunks hs hne htrig
    refine texturedSubmit_state_flush g g1 ds texture _ hs hne ?_
    rcases htrig with h | h
    · exact Or.inl (pipelineIncompatible_ne ds g.draw_state h)
    · exact Or.inr h

/-- C5: engine construction builds exactly 60 pipeline objects — one per
(stencil class, blend mode) pair for each of the two vertex kinds — each
with a distinct identity created exactly once (their identities are exactly
`0..59`); every lookup returns one of these stored objects; lookups with the
same (stencil class, blend mode) key return the same object regardless of
the stencil reference value; and no frame operation ever replaces the
pipeline tables. -/
theorem pipelines_built_once_lookup_stable :
    ((Wgpu2d.new.colored_render_pipelines.toList ++
        Wgpu2d.new.textured_render_pipelines.toList).map Pipeline.id = List.range 60) ∧
    (∀ s b, (Wgpu2d.new.colored_render_pipelines.stencil_blend s b).1 ∈
        Wgpu2d.new.colored_render_pipelines.toList ∧
      (Wgpu2d.new.textured_render_pipelines.stencil_blend s b).1 ∈
        Wgpu2d.new.textured_render_pipelines.toList) ∧
    (∀ (p : PsoStencil Pipeline) s s2 b, stencilClass s = stencilClass s2 →
      (p.stencil_blend s b).1 = (p.stencil_blend s2 b).1) ∧
    (∀ width height ops g, runOps (initialFrame width height) ops = some g →
      g.wgpu2d.colored_render_pipelines = Wgpu2d.new.colored_render_pipelines ∧
      g.wgpu2d.textured_render_pipelines = Wgpu2d.new.textured_render_pipelines) := by
  refine ⟨by decide, ?_, ?_, ?_⟩
  · intro s b
    constructor <;> rw [stencil_blend_fst] <;>
      exact PsoStencil.classGet_sub _ _ _ (PsoBlend.blend_mem _ b)
  · intro p s s2 b h
    rw [stencil_blend_fst, stencil_blend_fst, h]
  · intro width height ops g hrun
    obtain ⟨g1, h1, _, _, _, _, hcp, htp, _⟩ := runOps_spec ops _ (initialFrame_inv width height)
    rw [hrun] at h1
    obtain rfl : g = g1 := Option.some.inj h1
    exact ⟨hcp, htp⟩

/-- C7: the pipeline table maps each stencil class to exactly the specified
hardware stencil configuration — absent: test disabled (both faces ignore)
with zero masks; Clip: compare never, fail-op replace, masks 0xFF; Inside:
compare equal; Outside: compare not-equal; Increment: compare never,
fail-op increment-and-clamp — identically on front and back faces, for all
six blend modes of both vertex kinds. -/
theorem stencil_class_hardware_config :
    (∀ p ∈ Wgpu2d.new.colored_render_pipelines.none.toList ++
        Wgpu2d.new.textured_render_pipelines.none.toList, p.stencil = stencil_none) ∧
    (∀ p ∈ Wgpu2d.new.colored_render_pipelines.clip.toList ++
        Wgpu2d.new.textured_render_pipelines.clip.toList, p.stencil = stencil_clip) ∧
    (∀ p ∈ Wgpu2d.new.colored_render_pipelines.inside.toList ++
        Wgpu2d.new.textured_render_pipelines.inside.toList, p.stencil = stencil_inside) ∧
    (∀ p ∈ Wgpu2d.new.colored_render_pipelines.outside.toList ++
        Wgpu2d.new.textured_render_pipelines.outside.toList, p.stencil = stencil_outside) ∧
    (∀ p ∈ Wgpu2d.new.colored_render_pipelines.increment.toList ++
        Wgpu2d.new.textured_render_pipelines.increment.toList, p.stencil = stencil_increment) ∧
    (stencil_none.front = StencilFaceState.ignore ∧ stencil_none.back = StencilFaceState.ignore ∧
      stencil_none.read_mask = 0 ∧ stencil_none.write_mask = 0) ∧
    (stencil_clip.front.compare = CompareFunction.never ∧
      stencil_clip.front.fail_op = StencilOperation.replace ∧
      stencil_clip.back = stencil_clip.front ∧
      stencil_clip.read_mask = 255 ∧ stencil_clip.write_mask = 255) ∧
    (stencil_inside.front.compare = CompareFunction.equal ∧
      stencil_inside.back = stencil_inside.front) ∧
    (stencil_outside.front.compare = CompareFunction.notEqual ∧
      stencil_outside.back = stencil_outside.front) ∧
    (stencil_increment.front.compare = CompareFunction.never ∧
      stencil_increment.front.fail_op = StencilOperation.incrementClamp ∧
      stencil_increment.back = stencil_increment.front) := by
  decide

/-- C8: for every flush, a draw state without a scissor rectangle binds the
full output extent `[0, 0, width, height]`, a draw state with
`scissor = Some rect` binds exactly `rect`, and the stencil reference value
is set for the draw if and only if the stencil mode carries one (Clip,
Inside, Outside — not Increment nor absent); the textured flush binds the
same scissor and reference as the colored one would under the same state. -/
theorem flush_scissor_default_and_stencil_ref (g : WgpuGraphics) :
    (g.draw_state.scissor = Option.none →
      g.coloredCallOf.scissor = ⟨0, 0, g.width, g.height⟩) ∧
    (∀ rect, g.draw_state.scissor = some rect → g.coloredCallOf.scissor = rect) ∧
    (g.coloredCallOf.stencilRef.isSome ↔ stencilCarriesRef g.draw_state.stencil) ∧
    (∀ tex, (g.texturedCallOf tex).scissor = g.coloredCallOf.scissor ∧
      (g.texturedCallOf tex).stencilRef = g.coloredCallOf.stencilRef) ∧
    g.command_colored.cmds = g.cmds ++ [Cmd.colored g.coloredCallOf] := by
  refine ⟨?_, ?_, ?_, ?_, command_colored_cmds g⟩
  · intro h
    simp [WgpuGraphics.coloredCallOf, WgpuGraphics.scissorRect, h]
  · intro rect h
    simp [WgpuGraphics.coloredCallOf, WgpuGraphics.scissorRect, h]
  · show (g.wgpu2d.colored_render_pipelines.stencil_blend g.draw_state.stencil
      g.draw_state.blend).2.isSome ↔ stencilCarriesRef g.draw_state.stencil
    cases hst : g.draw_state.stencil with
    | none => simp [PsoStencil.stencil_blend, stencilCarriesRef]
    | some sv => cases sv <;> simp [PsoStencil.stencil_blend, stencilCarriesRef]
  · intro tex
    constructor
    · rfl
    · show (g.wgpu2d.textured_render_pipelines.stencil_blend g.draw_state.stencil
        g.draw_state.blend).2 = (g.wgpu2d.colored_render_pipelines.stencil_blend
        g.draw_state.stencil g.draw_state.blend).2
      cases hst : g.draw_state.stencil with
      | none => rfl
      | some sv => cases sv <;> rfl

/-- C9: a flush records exactly one draw pass covering all currently pending
vertices of its kind, read from a freshly created buffer (its identity is
new relative to every buffer any earlier command reads); afterwards that
kind's pending buffer is empty while the other kind's buffer, the current
draw state and the current texture are unchanged. -/
theorem flush_single_draw_clears_batch (g : WgpuGraphics) :
    (g.command_colored.cmds = g.cmds ++ [Cmd.colored g.coloredCallOf] ∧
      g.coloredCallOf.verts = g.colored_data ∧
      g.coloredCallOf.bufferId = g.nextBufferId ∧
      g.command_colored.colored_data = [] ∧
      g.command_colored.textured_data = g.textured_data ∧
      g.command_colored.draw_state = g.draw_state ∧
      g.command_colored.texture = g.texture ∧
      ((∀ c ∈ g.cmds, ∀ i ∈ c.bufferIds, i < g.nextBufferId) →
        ∀ c ∈ g.cmds, ¬ g.coloredCallOf.bufferId ∈ c.bufferIds)) ∧
    (∀ tex, g.texture = some tex → ∃ g2, g.command_textured = some g2 ∧
      g2.cmds = g.cmds ++ [Cmd.textured (g.texturedCallOf tex)] ∧
      (g.texturedCallOf tex).verts = g.textured_data ∧
      (g.texturedCallOf tex).bufferId = g.nextBufferId ∧
      g2.textured_data = [] ∧ g2.colored_data = g.colored_data ∧
      g2.draw_state = g.draw_state ∧ g2.texture = g.texture ∧
      ((∀ c ∈ g.cmds, ∀ i ∈ c.bufferIds, i < g.nextBufferId) →
        ∀ c ∈ g.cmds, ¬ (g.texturedCallOf tex).bufferId ∈ c.bufferIds)) := by
  constructor
  · refine ⟨command_colored_cmds g, rfl, rfl, command_colored_colored_data g,
      command_colored_textured_data g, command_colored_draw_state g,
      command_colored_texture g, ?_⟩
    intro h c hc hmem
    exact absurd (h c hc _ hmem) (Nat.lt_irrefl g.nextBufferId)
  · intro tex htex
    obtain ⟨g2, hg2, f1, f2, f3, f4, _, _, _, _, hcmds, _⟩ := command_textured_spec g tex htex
    refine ⟨g2, hg2, hcmds, texturedCallOf_verts g tex, rfl, f2, f1, f3, f4, ?_⟩
    intro h c hc hmem
    exact absurd (h c hc _ hmem) (Nat.lt_irrefl g.nextBufferId)

/-- Concrete draw state: no scissor, no stencil, no blend. -/
def wDS1 : DrawState := ⟨Option.none, Option.none, Option.none⟩

/-- Concrete draw state: inside-stencil, alpha blend. -/
def wDS2 : DrawState := ⟨Option.none, some (Stencil.inside 2), some Blend.alpha⟩

/-- Concrete color payload. -/
def wRed : Vec4 := ⟨1, 0, 0, 1⟩

/-- Concrete position payload. -/
def wPos : Vec2 := ⟨3, 4⟩

/-- Concrete texture handle. -/
def wTex : Texture := ⟨7⟩

/-- A mid-frame state with one pending textured vertex and a recorded texture. -/
def wG : WgpuGraphics :=
  { wgpu2d := { Wgpu2d.new with textured_data := [⟨wPos, wPos, wRed⟩] },
    width := 640, height := 480, draw_state := wDS1, texture := some wTex,
    cmds := [], nextBufferId := 0 }

/-- A mid-frame state with one pending colored vertex. -/
def wGc : WgpuGraphics :=
  { wgpu2d := { Wgpu2d.new with colored_data := [⟨wPos, wRed⟩] },
    width := 640, height := 480, draw_state := wDS1, texture := Option.none,
    cmds := [], nextBufferId := 0 }

theorem submit_flushes_other_kind_first_witness :
    ((wG.tri_list wDS1 wRed [[wPos]]).getD wG).textured_data = [] ∧
    wG.textured_data ≠ [] :=
  ⟨((submit_flushes_other_kind_first wG ((wG.tri_list wDS1 wRed [[wPos]]).getD wG)).1
      wDS1 wRed [[wPos]] (by decide)).1,
   by decide⟩

theorem incompatible_state_flushes_before_append_witness :
    ∃ rest, ((wGc.tri_list wDS2 wRed [[wPos]]).getD wGc).cmds =
      wGc.cmds ++ Cmd.colored wGc.coloredCallOf :: rest :=
  (incompatible_state_flushes_before_append wGc
      ((wGc.tri_list wDS2 wRed [[wPos]]).getD wGc)).1
    wDS2 wRed [[wPos]] (by decide) (by decide) (Or.inl (by decide))

theorem flushed_batches_respect_soft_limit_witness :
    cmdBounded (((((runOps (initialFrame 640 480)
        [FrameOp.tri_list wDS1 wRed [[wPos]]]).getD
        (initialFrame 640 480)).draw).getD (initialFrame 640 480)).cmds.headD
      (Cmd.clearPass LoadOp.load LoadOp.load)) :=
  flushed_batches_respect_soft_limit 640 480 [FrameOp.tri_list wDS1 wRed [[wPos]]]
    ((runOps (initialFrame 640 480) [FrameOp.tri_list wDS1 wRed [[wPos]]]).getD
      (initialFrame 640 480))
    ((((runOps (initialFrame 640 480) [FrameOp.tri_list wDS1 wRed [[wPos]]]).getD
        (initialFrame 640 480)).draw).getD (initialFrame 640 480))
    (by
      intro op hop
      simp at hop
      subst hop
      intro ch hch
      simp at hch
      subst hch
      decide)
    (by decide) (by decide) _ (by decide)

theorem pipelines_built_once_lookup_stable_witness :
    (Wgpu2d.new.colored_render_pipelines.stencil_blend (some (Stencil.clip 1))
        (some Blend.alpha)).1 =
      (Wgpu2d.new.colored_render_pipelines.stencil_blend (some (Stencil.clip 200))
        (some Blend.alpha)).1 ∧
    (Wgpu2d.new.colored_render_pipelines.stencil_blend Option.none Option.none).1 ∈
      Wgpu2d.new.colored_render_pipelines.toList ∧
    (initialFrame 4 4).wgpu2d.colored_render_pipelines = Wgpu2d.new.colored_render_pipelines :=
  ⟨pipelines_built_once_lookup_stable.2.2.1 Wgpu2d.new.colored_render_pipelines
      (some (Stencil.clip 1)) (some (Stencil.clip 200)) (some Blend.alpha) (by decide),
   (pipelines_built_once_lookup_stable.2.1 Option.none Option.none).1,
   (pipelines_built_once_lookup_stable.2.2.2 4 4 [] (initialFrame 4 4) rfl).1⟩

theorem clear_flushes_pending_and_orders_witness :
    ((wGc.clear_color wRed).getD wGc).colored_data = [] ∧
    ((wGc.clear_color wRed).getD wGc).textured_data = [] :=
  ⟨((clear_flushes_pending_and_orders wGc ((wGc.clear_color wRed).getD wGc)
      ⟨Or.inr rfl, Or.inl rfl⟩).1 wRed (by decide)).1,
   ((clear_flushes_pending_and_orders wGc ((wGc.clear_color wRed).getD wGc)
      ⟨Or.inr rfl, Or.inl rfl⟩).1 wRed (by decide)).2.1⟩

theorem stencil_class_hardware_config_witness :
    Wgpu2d.new.colored_render_pipelines.clip.alpha.stencil = stencil_clip :=
  stencil_class_hardware_config.2.1 Wgpu2d.new.colored_render_pipelines.clip.alpha (by decide)

theorem flush_scissor_default_and_stencil_ref_witness :
    wGc.coloredCallOf.scissor = ⟨0, 0, wGc.width, wGc.height⟩ :=
  (flush_scissor_default_and_stencil_ref wGc).1 rfl

theorem flush_single_draw_clears_batch_witness :
    ∃ g2, wG.command_textured = some g2 ∧ g2.textured_data = [] := by
  obtain ⟨g2, h1, _, _, _, h5, _⟩ := (flush_single_draw_clears_batch wG).2 wTex rfl
  exact ⟨g2, h1, h5⟩
